import Mathlib

/-!
Verification development for the Jira chatbot query pipeline
(`sanitizeJQL`, `extractTextFromADF`, `preprocessQuery`, `analyzeQueryIntent`,
`generateJQL`, `fallbackGenerateJQL`, `generateResponse` and the
`/api/query` request handler).

The JavaScript source is embedded shallowly: strings are `List Char` /
`String`, each regular-expression rewrite of the source is translated to a
deterministic scanner with the exact matching semantics of the original
pattern (leftmost match, greedy quantifiers, the documented behaviour of
look-around assertions), and every external interaction (generative-model
call, remote search call, `Math.random`, date formatting) is a parameter
of the embedded function.
-/

namespace SomiApp

set_option maxHeartbeats 1000000

/-- The apostrophe character, used to build string literals. -/
def apc : Char := Char.ofNat 39

/-- The apostrophe as a one-character string. -/
def ap : String := String.singleton apc

/-- JavaScript `\s` (ASCII whitespace as used by the queries at hand). -/
def isWS (c : Char) : Bool :=
  c == ' ' || c == '\t' || c == '\n' || c == '\r' || c == Char.ofNat 11 || c == Char.ofNat 12

/-- JavaScript `\w`: letters, digits and underscore. -/
def isWordChar (c : Char) : Bool :=
  c.isAlphanum || c == '_'

/-- A single or double quote (the set `["']` of the sanitizer's patterns). -/
def isQuote (c : Char) : Bool :=
  c == '"' || c == apc

/-- JavaScript `String.prototype.includes`: substring containment. -/
def containsSub (n : List Char) : List Char → Bool
  | [] => n.isEmpty
  | c :: t => n.isPrefixOf (c :: t) || containsSub n t

theorem containsSub_of_isPrefixOf {n h : List Char} (hp : n.isPrefixOf h = true) :
    containsSub n h = true := by
  cases h with
  | nil =>
    cases n with
    | nil => rfl
    | cons a t => simp [List.isPrefixOf] at hp
  | cons c t => simp [containsSub, hp]

/-- Case-insensitively strip the literal `pat` from the front of `l`,
returning the matched characters as written and the remainder. -/
def stripCI : List Char → List Char → Option (List Char × List Char)
  | [], l => some ([], l)
  | _ :: _, [] => none
  | p :: ps, c :: cs =>
    if c.toLower == p.toLower then
      match stripCI ps cs with
      | some (m, rest) => some (c :: m, rest)
      | none => none
    else none

theorem stripCI_spec : ∀ (pat l m rest : List Char),
    stripCI pat l = some (m, rest) → l = m ++ rest ∧ m.length = pat.length := by
  intro pat
  induction pat with
  | nil =>
    intro l m rest h
    simp [stripCI] at h
    simp [h.1, h.2]
  | cons p ps ih =>
    intro l m rest h
    cases l with
    | nil => simp [stripCI] at h
    | cons c cs =>
      simp only [stripCI] at h
      by_cases hc : (c.toLower == p.toLower) = true
      · rw [if_pos hc] at h
        cases hm : stripCI ps cs with
        | none => rw [hm] at h; exact absurd h (by simp)
        | some pr =>
          obtain ⟨m', rest'⟩ := pr
          rw [hm] at h
          simp at h
          obtain ⟨hm1, hm2⟩ := h
          obtain ⟨he, hl⟩ := ih cs m' rest' hm
          subst hm1 hm2
          simp [he, hl]
      · rw [if_neg hc] at h
        exact absurd h (by simp)

/-- Generic left-to-right rewrite scan (the semantics of a JavaScript global
regex replace whose pattern cannot match the empty string and does not look
behind the match position): at each position try the matcher `f`; on a match
emit the replacement and continue after the matched text, otherwise copy one
character. A matcher used here satisfies `f l = some (repl, matched, rest)`
only when `l = matched ++ rest` with `matched` non-empty (the `_spec` lemmas
below), so the scan consumes at least one character per step and the fuel
`l.length` passed by every caller is never exhausted. -/
def scanRw (f : List Char → Option (List Char × List Char × List Char)) :
    Nat → List Char → List Char
  | 0, l => l
  | _ + 1, [] => []
  | fuel + 1, c :: t =>
    match f (c :: t) with
    | some (r, _, rest) => r ++ scanRw f fuel rest
    | none => c :: scanRw f fuel t

/-- As `scanRw`, but the matcher also sees the character of the original
string immediately before the current position (for `\b` at the start of a
pattern). -/
def scanRwB (f : Option Char → List Char → Option (List Char × List Char × List Char)) :
    Nat → Option Char → List Char → List Char
  | 0, _, l => l
  | _ + 1, _, [] => []
  | fuel + 1, prev, c :: t =>
    match f prev (c :: t) with
    | some (r, m, rest) => r ++ scanRwB f fuel (m.getLast?.orElse fun _ => prev) rest
    | none => c :: scanRwB f fuel (some c) t

/-! ## `sanitizeJQL` (source lines 8-38)

Each `replace` of the source is a scanner below; the passes are composed in
source order. The configured project key is the repository's default. -/

/-- The configured project key (`process.env.JIRA_PROJECT_KEY`, default used
by the repository). -/
def JIRA_PROJECT_KEY : String := "NIHK"

/-- Decide the lookahead `[^(]*\)` of the comma pattern: scanning forward, a
`)` is reached before any `(`. -/
def closeBeforeOpen : List Char → Bool
  | [] => false
  | c :: t => if c == ')' then true else if c == '(' then false else closeBeforeOpen t

/-- Matcher for `/,(?![^(]*\))/g → " AND "`: a comma whose negative
lookahead succeeds (no `)` ahead of any `(`) is replaced. -/
def matchComma : List Char → Option (List Char × List Char × List Char)
  | [] => none
  | c :: t =>
    if c == ',' && !closeBeforeOpen t then some ((" AND ").data, [c], t) else none

theorem matchComma_spec : ∀ l r m rest, matchComma l = some (r, m, rest) →
    l = m ++ rest ∧ m ≠ [] := by
  intro l r m rest h
  cases l with
  | nil => simp [matchComma] at h
  | cons c t =>
    simp only [matchComma] at h
    split at h
    · simp at h
      obtain ⟨_, h2, h3⟩ := h
      subst h2 h3
      simp
    · simp at h

/-- `\b` after the end of a word whose last character is a word character:
the next character is absent or not a word character. -/
def wordBoundaryAfter : List Char → Bool
  | [] => true
  | c :: _ => !isWordChar c

/-- Matcher for `/\s+is\s+empty\b/gi → " is EMPTY"`. -/
def matchIsEmpty (l : List Char) : Option (List Char × List Char × List Char) :=
  let ws1 := l.takeWhile isWS
  let r1 := l.dropWhile isWS
  if ws1.isEmpty then none else
  match stripCI ("is").data r1 with
  | none => none
  | some (m1, r2) =>
    let ws2 := r2.takeWhile isWS
    let r3 := r2.dropWhile isWS
    if ws2.isEmpty then none else
    match stripCI ("empty").data r3 with
    | none => none
    | some (m2, r4) =>
      if wordBoundaryAfter r4 then
        some ((" is EMPTY").data, ws1 ++ m1 ++ ws2 ++ m2, r4)
      else none

theorem matchIsEmpty_spec : ∀ l r m rest, matchIsEmpty l = some (r, m, rest) →
    l = m ++ rest ∧ m ≠ [] := by
  intro l r m rest h
  unfold matchIsEmpty at h
  dsimp only at h
  split at h
  · simp at h
  · rename_i hws1
    cases h1 : stripCI ("is").data (l.dropWhile isWS) with
    | none => rw [h1] at h; simp at h
    | some pr1 =>
      obtain ⟨m1, r2⟩ := pr1
      rw [h1] at h
      simp only at h
      split at h
      · simp at h
      · rename_i hws2
        cases h2 : stripCI ("empty").data (r2.dropWhile isWS) with
        | none => rw [h2] at h; simp at h
        | some pr2 =>
          obtain ⟨m2, r4⟩ := pr2
          rw [h2] at h
          simp only at h
          split at h
          · simp at h
            obtain ⟨_, hm, hrest⟩ := h
            subst hm hrest
            have e2 := (stripCI_spec _ _ _ _ h1).1
            have e4 := (stripCI_spec _ _ _ _ h2).1
            constructor
            · conv_lhs => rw [← List.takeWhile_append_dropWhile isWS l, e2,
                ← List.takeWhile_append_dropWhile isWS r2, e4]
              simp [List.append_assoc]
            · intro hx
              have hl1 := (stripCI_spec _ _ _ _ h1).2
              simp at hx
              rw [hx.2.1] at hl1
              simp at hl1
          · simp at h

/-- Matcher for `/\s+is\s+not\s+empty\b/gi → " is not EMPTY"`. -/
def matchIsNotEmpty (l : List Char) : Option (List Char × List Char × List Char) :=
  let ws1 := l.takeWhile isWS
  let r1 := l.dropWhile isWS
  if ws1.isEmpty then none else
  match stripCI ("is").data r1 with
  | none => none
  | some (m1, r2) =>
    let ws2 := r2.takeWhile isWS
    let r3 := r2.dropWhile isWS
    if ws2.isEmpty then none else
    match stripCI ("not").data r3 with
    | none => none
    | some (m2, r4) =>
      let ws3 := r4.takeWhile isWS
      let r5 := r4.dropWhile isWS
      if ws3.isEmpty then none else
      match stripCI ("empty").data r5 with
      | none => none
      | some (m3, r6) =>
        if wordBoundaryAfter r6 then
          some ((" is not EMPTY").data, ws1 ++ m1 ++ ws2 ++ m2 ++ ws3 ++ m3, r6)
        else none

theorem matchIsNotEmpty_spec : ∀ l r m rest, matchIsNotEmpty l = some (r, m, rest) →
    l = m ++ rest ∧ m ≠ [] := by
  intro l r m rest h
  unfold matchIsNotEmpty at h
  dsimp only at h
  split at h
  · simp at h
  · rename_i hws1
    cases h1 : stripCI ("is").data (l.dropWhile isWS) with
    | none => rw [h1] at h; simp at h
    | some pr1 =>
      obtain ⟨m1, r2⟩ := pr1
      rw [h1] at h
      simp only at h
      split at h
      · simp at h
      · cases h2 : stripCI ("not").data (r2.dropWhile isWS) with
        | none => rw [h2] at h; simp at h
        | some pr2 =>
          obtain ⟨m2, r4⟩ := pr2
          rw [h2] at h
          simp only at h
          split at h
          · simp at h
          · cases h3 : stripCI ("empty").data (r4.dropWhile isWS) with
            | none => rw [h3] at h; simp at h
            | some pr3 =>
              obtain ⟨m3, r6⟩ := pr3
              rw [h3] at h
              simp only at h
              split at h
              · simp at h
                obtain ⟨_, hm, hrest⟩ := h
                subst hm hrest
                have e2 := (stripCI_spec _ _ _ _ h1).1
                have e4 := (stripCI_spec _ _ _ _ h2).1
                have e6 := (stripCI_spec _ _ _ _ h3).1
                constructor
                · conv_lhs => rw [← List.takeWhile_append_dropWhile isWS l, e2,
                    ← List.takeWhile_append_dropWhile isWS r2, e4,
                    ← List.takeWhile_append_dropWhile isWS r4, e6]
                  simp [List.append_assoc]
                · intro hx
                  have hl1 := (stripCI_spec _ _ _ _ h1).2
                  simp at hx
                  rw [hx.2.1] at hl1
                  simp at hl1
              · simp at h

/-- Matcher for `/(\w+)\s*=\s*([^"'\s][^\s]*\s+[^\s"']*[^"'\s])/g → '$1 = "$2"'`.
The pattern is deterministic at every backtracking point (each greedy
sub-expression is followed by a sub-expression that cannot consume a
character the previous one rejected), except that the final `[^"'\s]` takes
the last character of the maximal run matched greedily by `[^\s"']*`. -/
def matchValueQuote (l : List Char) : Option (List Char × List Char × List Char) :=
  let w := l.takeWhile isWordChar
  let r1 := l.dropWhile isWordChar
  if w.isEmpty then none else
  let s1 := r1.takeWhile isWS
  let r2 := r1.dropWhile isWS
  match r2 with
  | '=' :: r3 =>
    let s2 := r3.takeWhile isWS
    let r4 := r3.dropWhile isWS
    match r4 with
    | c0 :: r5 =>
      if isQuote c0 then none else
      let nsp := r5.takeWhile (fun c => !isWS c)
      let r6 := r5.dropWhile (fun c => !isWS c)
      let s3 := r6.takeWhile isWS
      let r7 := r6.dropWhile isWS
      if s3.isEmpty then none else
      let run2 := r7.takeWhile (fun c => !isWS c && !isQuote c)
      let rest := r7.dropWhile (fun c => !isWS c && !isQuote c)
      if run2.isEmpty then none else
      let g2 := c0 :: (nsp ++ s3 ++ run2)
      some (w ++ (" = ").data ++ '"' :: (g2 ++ ['"']), w ++ s1 ++ '=' :: (s2 ++ g2), rest)
    | [] => none
  | _ => none

theorem matchValueQuote_spec : ∀ l r m rest, matchValueQuote l = some (r, m, rest) →
    l = m ++ rest ∧ m ≠ [] := by
  intro l r m rest h
  unfold matchValueQuote at h
  dsimp only at h
  split at h
  · simp at h
  · rename_i hw
    split at h
    · rename_i r3 heq2
      split at h
      · rename_i c0 r5 heq4
        split at h
        · simp at h
        · split at h
          · simp at h
          · rename_i hs3
            split at h
            · simp at h
            · rename_i hrun2
              simp at h
              obtain ⟨_, hm, hrest⟩ := h
              subst hm hrest
              constructor
              · conv_lhs => rw [← List.takeWhile_append_dropWhile isWordChar l,
                  ← List.takeWhile_append_dropWhile isWS (l.dropWhile isWordChar), heq2]
                conv_lhs => rw [← List.takeWhile_append_dropWhile isWS r3, heq4,
                  ← List.takeWhile_append_dropWhile (fun c => !isWS c) r5,
                  ← List.takeWhile_append_dropWhile isWS (r5.dropWhile (fun c => !isWS c)),
                  ← List.takeWhile_append_dropWhile (fun c => !isWS c && !isQuote c)
                    ((r5.dropWhile (fun c => !isWS c)).dropWhile isWS)]
                simp [List.append_assoc]
              · intro hx
                simp at hx
      · simp at h
    · simp at h

/-- Matcher for the reserved-word pattern ``new RegExp(`\b${word}\b(?<!["'])`, "gi")``
with replacement `"word"` (the quoted lower-case word). The start `\b` is
checked against the character preceding the match in the original string;
the lookbehind is evaluated at the position after the match, i.e. it
inspects the last character of the matched word itself (and therefore never
rejects a match whose word consists of letters). The guard on the empty
word is vacuous for the fixed reserved-word list. -/
def matchReserved (word : String) (prev : Option Char) (l : List Char) :
    Option (List Char × List Char × List Char) :=
  if word.isEmpty then none else
  if (prev.map isWordChar).getD false then none else
  match stripCI word.data l with
  | none => none
  | some (m, rest) =>
    if (rest.head?.map isWordChar).getD false then none else
    if (m.getLast?.map isQuote).getD false then none else
    some ('"' :: (word.data ++ ['"']), m, rest)

theorem matchReserved_spec (word : String) :
    ∀ p l r m rest, matchReserved word p l = some (r, m, rest) →
    l = m ++ rest ∧ m ≠ [] := by
  intro p l r m rest h
  unfold matchReserved at h
  split at h
  · simp at h
  · rename_i hword
    split at h
    · simp at h
    · cases h1 : stripCI word.data l with
      | none => rw [h1] at h; simp at h
      | some pr =>
        obtain ⟨m', rest'⟩ := pr
        rw [h1] at h
        simp only at h
        split at h
        · simp at h
        · split at h
          · simp at h
          · simp at h
            obtain ⟨_, hm, hrest⟩ := h
            subst hm hrest
            obtain ⟨he, hl⟩ := stripCI_spec _ _ _ _ h1
            refine ⟨he, ?_⟩
            intro hx
            rw [hx] at hl
            apply hword
            obtain ⟨d⟩ := word
            cases d with
            | nil => rfl
            | cons a t => simp at hl

/-- First sanitizer pass: `jql.replace(/,(?![^(]*\))/g, " AND ")`. -/
def replaceCommas (l : List Char) : List Char :=
  scanRw matchComma l.length l

/-- Second sanitizer pass (source lines 18-20): if neither the quoted nor
the bare project-scope clause occurs as a substring, wrap the whole
expression in a project-scope AND-conjunction. -/
def scopeStep (l : List Char) : List Char :=
  if containsSub ("project = \"" ++ JIRA_PROJECT_KEY ++ "\"").data l
      || containsSub ("project = " ++ JIRA_PROJECT_KEY).data l then l
  else ("project = " ++ JIRA_PROJECT_KEY ++ " AND (").data ++ l ++ [')']

/-- Pass `.replace(/\s+is\s+empty\b/gi, " is EMPTY")`. -/
def fixIsEmpty (l : List Char) : List Char :=
  scanRw matchIsEmpty l.length l

/-- Pass `.replace(/\s+is\s+not\s+empty\b/gi, " is not EMPTY")`. -/
def fixIsNotEmpty (l : List Char) : List Char :=
  scanRw matchIsNotEmpty l.length l

/-- Pass `.replace(/(\w+)\s*=\s*([^"'\s][^\s]*\s+[^\s"']*[^"'\s])/g, '$1 = "$2"')`. -/
def quoteValues (l : List Char) : List Char :=
  scanRw matchValueQuote l.length l

/-- One reserved-word quoting pass (one iteration of the source's loop). -/
def quoteReserved (word : String) (l : List Char) : List Char :=
  scanRwB (matchReserved word) l.length none l

/-- The source's fixed reserved-word list. -/
def reservedWords : List String :=
  ["limit", "and", "or", "not", "empty", "null", "order", "by", "asc", "desc"]

/-- The body of `sanitizeJQL` on a non-empty input, passes in source order. -/
def sanitizeList (l : List Char) : List Char :=
  reservedWords.foldl (fun s w => quoteReserved w s)
    (quoteValues (fixIsNotEmpty (fixIsEmpty (scopeStep (replaceCommas l)))))

/-- `sanitizeJQL` (source lines 8-38). A falsy (empty) input returns the
bare project scope. -/
def sanitizeJQL (jql : String) : String :=
  if jql.isEmpty then "project = " ++ JIRA_PROJECT_KEY
  else String.mk (sanitizeList jql.data)

/-- Does a structured query contain the project-scope clause, in the exact
or the quoted-equal form tested by the sanitizer? -/
def containsProjectScope (s : String) : Bool :=
  containsSub ("project = \"" ++ JIRA_PROJECT_KEY ++ "\"").data s.data
    || containsSub ("project = " ++ JIRA_PROJECT_KEY).data s.data

theorem scopeStep_contains (l : List Char) :
    (containsSub ("project = \"" ++ JIRA_PROJECT_KEY ++ "\"").data (scopeStep l)
      || containsSub ("project = " ++ JIRA_PROJECT_KEY).data (scopeStep l)) = true := by
  unfold scopeStep
  split
  · rename_i hc
    exact hc
  · have hb : ("project = " ++ JIRA_PROJECT_KEY).data.isPrefixOf
        (("project = " ++ JIRA_PROJECT_KEY ++ " AND (").data ++ l ++ [')']) = true := by
      rfl
    rw [containsSub_of_isPrefixOf hb]
    simp

/-- C2, counterexample: the claim that the sanitizer's final output always
contains the project-scope clause is false — on the input
`status = "Open"` the injected clause is destroyed by the later
value-quoting and reserved-word-quoting passes. -/
theorem C2_scope_lost_counterexample :
    containsProjectScope (sanitizeJQL ("status = \"Open\"")) = false := by
  decide

/-- C2, amended: the scope-injection step itself (source lines 18-20) is
total and idempotent — its result always contains the project-scope clause
in the exact or quoted-equal form, and re-applying it changes nothing —
and the sanitizer's output on the empty/absent input is the bare
project-scope clause; but the sanitizer's later quoting passes may rewrite
the injected clause, so the sanitizer's final output need not contain it. -/
theorem C2_scope_injection_step_total_idempotent :
    (∀ l : List Char,
      (containsSub ("project = \"" ++ JIRA_PROJECT_KEY ++ "\"").data (scopeStep l)
        || containsSub ("project = " ++ JIRA_PROJECT_KEY).data (scopeStep l)) = true)
    ∧ (∀ l : List Char, scopeStep (scopeStep l) = scopeStep l)
    ∧ containsProjectScope (sanitizeJQL "") = true := by
  refine ⟨scopeStep_contains, ?_, by decide⟩
  intro l
  by_cases hc : (containsSub ("project = \"" ++ JIRA_PROJECT_KEY ++ "\"").data l
      || containsSub ("project = " ++ JIRA_PROJECT_KEY).data l) = true
  · have h1 : scopeStep l = l := by unfold scopeStep; rw [if_pos hc]
    rw [h1]
    exact h1
  · have h1 : scopeStep l = ("project = " ++ JIRA_PROJECT_KEY ++ " AND (").data ++ l ++ [')'] := by
      unfold scopeStep; rw [if_neg hc]
    have hb : ("project = " ++ JIRA_PROJECT_KEY).data.isPrefixOf
        (("project = " ++ JIRA_PROJECT_KEY ++ " AND (").data ++ l ++ [')']) = true := by
      rfl
    conv_lhs => rw [h1]
    unfold scopeStep
    rw [if_pos]
    · exact h1.symm
    · rw [containsSub_of_isPrefixOf hb]
      simp

/-- C3: the sanitizer is not idempotent — on the failing input
`status = "Open"` a second application re-wraps the (already rewritten)
scope clause and re-quotes the already-quoted reserved word, because the
misplaced lookbehind of the reserved-word pattern inspects the last letter
of the word itself and therefore never skips an already-quoted occurrence. -/
theorem C3_sanitizer_not_idempotent :
    sanitizeJQL (sanitizeJQL ("status = \"Open\"")) ≠ sanitizeJQL ("status = \"Open\"") := by
  decide

/-- C4, counterexample: on the spec's scenario input the sanitizer does not
yield `status = "Open" AND assignee = "Jo"` — the comma replacement keeps
the following space and the later passes inject the project scope and
quote reserved words. -/
theorem C4_scenario_counterexample :
    sanitizeJQL ("status = \"Open\", assignee = \"Jo\"")
      ≠ "status = \"Open\" AND assignee = \"Jo\"" := by
  decide

/-- C4, amended: the comma-replacement pass does replace the bare comma
outside parentheses with the logical AND operator, yielding
`status = "Open" AND  assignee = "Jo"` (the original space after the comma
is preserved, so a double space appears), and the full sanitizer output on
this input additionally carries the injected-then-mangled project scope and
the quoted reserved words. -/
theorem C4_comma_replaced_with_AND :
    replaceCommas ("status = \"Open\", assignee = \"Jo\"").data
      = ("status = \"Open\" AND  assignee = \"Jo\"").data
    ∧ sanitizeJQL ("status = \"Open\", assignee = \"Jo\"")
      = "project = \"NIHK \"and\"\" (status = \"Open\" \"and\"  assignee = \"Jo\")" :=
  ⟨by decide, by decide⟩

/-! ## A small regular-expression engine

The phrasing patterns of `preprocessQuery`, `analyzeQueryIntent`,
`generateJQL` and `fallbackGenerateJQL` are ordinary regular expressions
(alternation, optional groups, classes, `.*`); they are embedded as syntax
trees and decided by Brzozowski derivatives. -/

/-- Regular-expression syntax: empty language, empty word, character class,
concatenation, alternation, Kleene star. -/
inductive Re
  | emp
  | eps
  | cls (p : Char → Bool)
  | seq (a b : Re)
  | alt (a b : Re)
  | star (a : Re)

/-- Does the language of `r` contain the empty word? -/
def nullable : Re → Bool
  | .emp => false
  | .eps => true
  | .cls _ => false
  | .seq a b => nullable a && nullable b
  | .alt a b => nullable a || nullable b
  | .star _ => true

/-- Smart concatenation (keeps derivative terms small). -/
def rseq : Re → Re → Re
  | .emp, _ => .emp
  | .eps, b => b
  | _, .emp => .emp
  | a, .eps => a
  | a, b => .seq a b

/-- Smart alternation (keeps derivative terms small). -/
def ralt : Re → Re → Re
  | .emp, b => b
  | a, .emp => a
  | a, b => .alt a b

/-- Brzozowski derivative with respect to one character. -/
def deriv : Re → Char → Re
  | .emp, _ => .emp
  | .eps, _ => .emp
  | .cls p, c => if p c then .eps else .emp
  | .seq a b, c =>
    if nullable a then ralt (rseq (deriv a c) b) (deriv b c) else rseq (deriv a c) b
  | .alt a b, c => ralt (deriv a c) (deriv b c)
  | .star a, c => rseq (deriv a c) (.star a)

/-- Does `r` match the whole character list? -/
def matchesFrom (r : Re) (l : List Char) : Bool :=
  nullable (l.foldl deriv r)

/-- Any character (wrapper used around a pattern for an unanchored test). -/
def anyChar : Re := .cls fun _ => true

/-- JavaScript `.`: any character except a line terminator. -/
def rdot : Re := .cls fun c => !(c == '\n' || c == '\r')

/-- One literal character, case-insensitively (all source patterns carry
the `i` flag). -/
def rchr (c : Char) : Re := .cls fun x => x.toLower == c.toLower

/-- A literal string. -/
def rstr (s : String) : Re := s.data.foldr (fun c r => rseq (rchr c) r) .eps

/-- Alternation of a list of expressions. -/
def ralts : List Re → Re
  | [] => .emp
  | [r] => r
  | r :: t => .alt r (ralts t)

/-- Alternation of literal strings. -/
def rstrs (ss : List String) : Re := ralts (ss.map rstr)

/-- `r?`. -/
def ropt (r : Re) : Re := .alt .eps r

/-- `r+`. -/
def rplus (r : Re) : Re := .seq r (.star r)

/-- `\s`. -/
def rws : Re := .cls isWS

/-- `\d`. -/
def rdigit : Re := .cls Char.isDigit

/-- `regex.test(s)` for an unanchored pattern: some substring matches. -/
def rtest (r : Re) (s : String) : Bool :=
  matchesFrom (.seq (.star anyChar) (.seq r (.star anyChar))) s.data

/-- `regex.test(s)` for a pattern anchored with `^`: some prefix matches. -/
def rtestStart (r : Re) (s : String) : Bool :=
  matchesFrom (.seq r (.star anyChar)) s.data

/-! ## `preprocessQuery` (source lines 84-166) -/

/-- JavaScript `String.prototype.trim` (both ends). -/
def trimChars (l : List Char) : List Char :=
  ((l.dropWhile isWS).reverse.dropWhile isWS).reverse

/-- The normalization at the head of `preprocessQuery`:
`query.trim().toLowerCase()`. -/
def normalizeQuery (q : String) : String :=
  ⟨(trimChars q.data).map Char.toLower⟩

/-- One entry of the `queryMappings` table. -/
structure QueryMapping where
  anchored : Bool
  re : Re
  standardized : String

/-- `mapping.regex.test(query)`. -/
def matchesMapping (m : QueryMapping) (q : String) : Bool :=
  if m.anchored then rtestStart m.re q else rtest m.re q

/-- The ordered `queryMappings` table (source lines 89-152); the final
entry's standardized form is the query itself. -/
def queryMappings (query : String) : List QueryMapping :=
  [ ⟨true, .seq (rstrs ["how is", "how" ++ ap ++ "s", "what" ++ ap ++ "s", "what is"])
      (.seq (rstr " ") (.seq (ropt (rstr "the ")) (.seq (rstr "project")
        (.seq (ropt (rstr (ap ++ "s"))) (.seq (rstr " ")
          (rstrs ["status", "progress", "going", "health"])))))),
      "show project status"⟩,
    ⟨true, .seq (rstrs ["give me", "show", "display"])
      (.seq (rstr " ") (.seq (ropt (rstrs ["the ", "a "])) (.seq (rstrs ["project", "overall"])
        (.seq (rstr " ") (rstrs ["status", "overview", "summary", "health"]))))),
      "show project status"⟩,
    ⟨true, .seq (rstrs ["project", "status"])
      (.seq (rstr " ") (rstrs ["overview", "health", "summary"])),
      "show project status"⟩,
    ⟨false, rstrs ["timeline", "schedule", "roadmap", "plan", "calendar", "deadlines"],
      "show project timeline"⟩,
    ⟨false, .seq (rstr "what") (.seq (ropt (rstrs [ap ++ "s", " is"]))
      (.seq (rstr " ") (rstrs ["coming up", "planned", "scheduled", "due"]))),
      "show upcoming deadlines"⟩,
    ⟨false, .seq (rstr "what") (.seq (ropt (rstrs [ap ++ "s", " is"]))
      (.seq (rstr " due ") (.seq (rstrs ["this", "next"])
        (.seq (rstr " ") (rstrs ["week", "month"]))))),
      "show upcoming deadlines"⟩,
    ⟨false, .seq (rstr "when ") (.seq (rstrs ["will", "is", "are"])
      (.seq (rstr " ") (.seq (.star rdot) (.seq (rstr " ")
        (rstrs ["due", "finish", "complete", "done"]))))),
      "show project timeline"⟩,
    ⟨false, .seq (rstr "what") (.seq (rstrs [ap ++ "s", " is"])
      (.seq (rstr " ") (.seq (ropt (rstrs ["the ", "our "])) (rstr "schedule")))),
      "show project timeline"⟩,
    ⟨false, rstrs ["blocker", "blocking issue", "impediment",
      "what" ++ ap ++ "s blocking", "what is blocking"],
      "show project blockers"⟩,
    ⟨false, .seq (rstr "what") (.seq (ropt (rstrs [ap ++ "s", " is"]))
      (.seq (rstr " ") (rstrs ["preventing", "stopping", "holding up"]))),
      "show project blockers"⟩,
    ⟨false, rstrs ["risk", "risks", "at risk", "critical issue"],
      "show high risk items"⟩,
    ⟨false, .seq (rstr "who") (.seq (rstrs [ap ++ "s", " is"])
      (.seq (rstr " ") (rstrs ["working on", "assigned to", "responsible for"]))),
      "show team workload"⟩,
    ⟨false, .seq (rstr "what") (.seq (rstrs [ap ++ "s", " is"])
      (.seq (rstr " ") (.seq (rstrs ["everyone", "everybody", "the team"])
        (rstr " working on")))),
      "show team workload"⟩,
    ⟨false, rstrs ["workload", "bandwidth", "capacity", "allocation"],
      "show team workload"⟩,
    ⟨false, .seq (rstr "who") (.seq (rstrs [ap ++ "s", " is"])
      (.seq (rstr " ") (rstrs ["overloaded", "busy", "free", "available"]))),
      "show team workload"⟩,
    ⟨false, .seq (rstrs ["show", "list", "find", "get"]) (.seq (rstr " ")
      (.seq (ropt (rstrs ["all ", "the ", ""])) (.seq (rstrs ["open", "active", "current"])
        (.seq (rstr " ") (rstrs ["tasks", "issues", "tickets"]))))),
      "show open tasks"⟩,
    ⟨false, .seq (rstrs ["show", "list", "find", "get"]) (.seq (rstr " ")
      (.seq (ropt (rstrs ["all ", "the ", ""]))
        (.seq (rstrs ["closed", "completed", "done", "resolved"])
          (.seq (rstr " ") (rstrs ["tasks", "issues", "tickets"]))))),
      "show closed tasks"⟩,
    ⟨false, .seq (rstrs ["show", "list", "find", "get"]) (.seq (rstr " ")
      (.seq (ropt (rstrs ["all ", "the ", ""]))
        (.seq (rstrs ["high priority", "important", "critical"])
          (.seq (rstr " ") (rstrs ["tasks", "issues", "tickets"]))))),
      "show high priority tasks"⟩,
    ⟨false, .seq (rstrs ["show", "list", "find", "get"]) (.seq (rstr " ")
      (.seq (ropt (rstrs ["all ", "the ", ""]))
        (.seq (rstrs ["unassigned", "without assignee"])
          (.seq (rstr " ") (rstrs ["tasks", "issues", "tickets"]))))),
      "show unassigned tasks"⟩,
    ⟨false, rstrs ["recent", "latest", "last", "newest",
      "what" ++ ap ++ "s new", "what is new"],
      "show recent updates"⟩,
    ⟨false, .seq (rstr "what") (.seq (rstrs [ap ++ "s", " has"]) (rstr " changed")),
      "show recent updates"⟩,
    ⟨false, .seq (rstr "what") (.seq (rstrs [ap ++ "s", " has"]) (rstr " happened")),
      "show recent updates"⟩,
    ⟨false, .seq (rstrs ["current", "active", "ongoing"]) (rstr " sprint"),
      "show current sprint"⟩,
    ⟨false, rstr "sprint status", "show current sprint"⟩,
    ⟨false, .seq (rstrs ["sprint", "iteration"]) (rstr " progress"),
      "show current sprint"⟩,
    ⟨false, .seq (rstrs ["latest", "most recent", "last"]) (.seq (rstr " ")
      (.seq (rstrs ["edited", "updated", "modified", "changed"])
        (.seq (rstr " ") (rstrs ["task", "issue", "ticket"])))),
      "show most recently updated task"⟩,
    ⟨false, .seq (rstrs ["show", "tell me about", "what is", "details for", "info on"])
      (.seq (rplus rws) (.seq (rstr JIRA_PROJECT_KEY) (.seq (rchr '-') (rplus rdigit)))),
      query⟩ ]

/-- A character removed by the final clean-up `replace(/[.,!?;]/g, "")`. -/
def isPunctRemoved (c : Char) : Bool :=
  c == '.' || c == ',' || c == '!' || c == '?' || c == ';'

/-- Matcher for `/[.,!?;]/g → ""`. -/
def matchPunct : List Char → Option (List Char × List Char × List Char)
  | [] => none
  | c :: t => if isPunctRemoved c then some ([], [c], t) else none

/-- The clean-up pass `query.replace(/[.,!?;]/g, "")`. -/
def stripPunct (l : List Char) : List Char :=
  scanRw matchPunct l.length l

/-- `preprocessQuery` (source lines 84-166): normalize, first mapping whose
pattern matches wins, otherwise strip `[.,!?;]` and trim. -/
def preprocessQuery (query : String) : String :=
  let q := normalizeQuery query
  match (queryMappings q).find? (fun m => matchesMapping m q) with
  | some m => m.standardized
  | none => ⟨trimChars (stripPunct q.data)⟩

theorem scanRw_matchPunct_eq_filter :
    ∀ (fuel : Nat) (l : List Char), l.length ≤ fuel →
      scanRw matchPunct fuel l = l.filter (fun c => !isPunctRemoved c) := by
  intro fuel
  induction fuel with
  | zero =>
    intro l hl
    have : l = [] := List.length_eq_zero.mp (Nat.le_zero.mp hl)
    subst this
    rfl
  | succ n ih =>
    intro l hl
    cases l with
    | nil => rfl
    | cons c t =>
      simp only [scanRw, matchPunct]
      by_cases hc : isPunctRemoved c = true
      · rw [if_pos hc]
        simp only [List.nil_append]
        rw [ih t (by simp at hl; omega)]
        simp [List.filter, hc]
      · rw [if_neg hc]
        rw [ih t (by simp at hl; omega)]
        simp [List.filter, hc]

theorem stripPunct_eq_filter (l : List Char) :
    stripPunct l = l.filter (fun c => !isPunctRemoved c) :=
  scanRw_matchPunct_eq_filter l.length l le_rfl

/-- C9, counterexample: an input with interior punctuation that matches no
phrasing pattern does not come back with its interior characters
preserved — the clean-up removes the punctuation everywhere. -/
theorem C9_interior_punctuation_counterexample :
    preprocessQuery "foo.bar" ≠ "foo.bar" := by
  decide

/-- C9, amended: for every input matching none of the phrasing patterns,
the Normalizer returns the trimmed, lowercased input with every occurrence
of the punctuation characters `.,!?;` removed (not only trailing ones),
then trimmed. -/
theorem C9_no_match_strips_all_punctuation (q : String)
    (hnone : ((queryMappings (normalizeQuery q)).all
      fun m => !matchesMapping m (normalizeQuery q)) = true) :
    preprocessQuery q =
      ⟨trimChars (((trimChars q.data).map Char.toLower).filter
        (fun c => !isPunctRemoved c))⟩ := by
  unfold preprocessQuery
  have hfind : (queryMappings (normalizeQuery q)).find?
      (fun m => matchesMapping m (normalizeQuery q)) = none := by
    rw [List.find?_eq_none]
    intro m hm
    have := (List.all_eq_true.mp hnone) m hm
    simpa using this
  dsimp only
  rw [hfind]
  rw [stripPunct_eq_filter]
  rfl

/-- C9, witness: the amended theorem applied to the concrete input
`"foo.bar"`, which matches no pattern and whose interior dot is removed. -/
theorem C9_witness :
    ((queryMappings (normalizeQuery "foo.bar")).all
      fun m => !matchesMapping m (normalizeQuery "foo.bar")) = true
    ∧ preprocessQuery "foo.bar" =
      ⟨trimChars (((trimChars ("foo.bar" : String).data).map Char.toLower).filter
        (fun c => !isPunctRemoved c))⟩ :=
  ⟨by decide, C9_no_match_strips_all_punctuation "foo.bar" (by decide)⟩

/-! ## Issue-key detection (`NIHK-\d+`, case-insensitive) -/

/-- JavaScript `String.prototype.trim` on a `String`. -/
def jsTrim (s : String) : String := ⟨trimChars s.data⟩

/-- Match the project's issue-key pattern `NIHK-\d+` (case-insensitive,
greedy digits) at the head of `l`, returning the matched text as written
and the remainder. -/
def matchKeyAt (l : List Char) : Option (List Char × List Char) :=
  match stripCI JIRA_PROJECT_KEY.data l with
  | none => none
  | some (mk, r1) =>
    match r1 with
    | '-' :: r2 =>
      let ds := r2.takeWhile Char.isDigit
      let rest := r2.dropWhile Char.isDigit
      if ds.isEmpty then none else some (mk ++ '-' :: ds, rest)
    | _ => none

/-- First match of the unanchored pattern `NIHK-\d+` (the semantics of
`query.match(containsIssueKey)[0]`). -/
def findKey : List Char → Option (List Char)
  | [] => none
  | c :: t =>
    match matchKeyAt (c :: t) with
    | some (m, _) => some m
    | none => findKey t

/-- `new RegExp(`NIHK-\d+`, "i").test(q)`. -/
def hasIssueKey (q : String) : Bool := (findKey q.data).isSome

/-- `new RegExp(`^\s*NIHK-\d+\s*$`, "i").test(q)`. -/
def exactKeyTest (q : String) : Bool :=
  match matchKeyAt (q.data.dropWhile isWS) with
  | some (_, rest) => rest.all isWS
  | none => false

/-- Does `m` consist exactly of an issue-key token? -/
def keyToken (m : List Char) : Bool :=
  match matchKeyAt m with
  | some (_, rest) => rest.isEmpty
  | none => false

theorem stripCI_replay : ∀ (pat l m r : List Char), stripCI pat l = some (m, r) →
    ∀ x, stripCI pat (m ++ x) = some (m, x) := by
  intro pat
  induction pat with
  | nil =>
    intro l m r h x
    simp [stripCI] at h
    simp [h.1, stripCI]
  | cons p ps ih =>
    intro l m r h x
    cases l with
    | nil => simp [stripCI] at h
    | cons c cs =>
      simp only [stripCI] at h
      split at h
      · rename_i hc
        cases hm : stripCI ps cs with
        | none => rw [hm] at h; simp at h
        | some pr =>
          obtain ⟨m', r'⟩ := pr
          rw [hm] at h
          simp at h
          obtain ⟨hm1, hm2⟩ := h
          subst hm1 hm2
          simp only [List.cons_append, stripCI, List.append_eq]
          rw [if_pos hc, ih cs m' r' hm x]
      · simp at h

theorem takeWhile_of_all {p : Char → Bool} : ∀ (l : List Char),
    (∀ c ∈ l, p c = true) → l.takeWhile p = l ∧ l.dropWhile p = [] := by
  intro l hall
  induction l with
  | nil => simp
  | cons c t ih =>
    have hc : p c = true := hall c (by simp)
    have ht := ih fun d hd => hall d (by simp [hd])
    simp [List.takeWhile, List.dropWhile, hc, ht.1, ht.2]

theorem dropWhile_append_of_all {p : Char → Bool} : ∀ (l1 l2 : List Char),
    (∀ c ∈ l1, p c = true) → List.dropWhile p (l1 ++ l2) = List.dropWhile p l2 := by
  intro l1
  induction l1 with
  | nil => simp
  | cons c t ih =>
    intro l2 hall
    have hc : p c = true := hall c (by simp)
    simp only [List.cons_append, List.dropWhile, hc]
    exact ih l2 fun d hd => hall d (by simp [hd])

theorem isWS_of_isDigit {c : Char} (h : c.isDigit = true) : isWS c = false := by
  simp [Char.isDigit] at h
  obtain ⟨h1, h2⟩ := h
  simp [isWS]
  repeat' apply And.intro
  all_goals intro he
  all_goals subst he
  all_goals revert h1 h2
  all_goals decide

theorem matchKeyAt_spec : ∀ l m rest, matchKeyAt l = some (m, rest) →
    l = m ++ rest ∧ keyToken m = true ∧ m ≠ [] ∧
      ∃ mk ds, m = mk ++ '-' :: ds ∧ ds ≠ [] ∧ ∀ c ∈ ds, c.isDigit = true := by
  intro l m rest h
  unfold matchKeyAt at h
  cases h1 : stripCI JIRA_PROJECT_KEY.data l with
  | none => rw [h1] at h; simp at h
  | some pr =>
    obtain ⟨mk, r1⟩ := pr
    rw [h1] at h
    simp only at h
    cases r1 with
    | nil => simp at h
    | cons c r2 =>
      by_cases hc : c = '-'
      · subst hc
        simp only at h
        split at h
        · simp at h
        · rename_i hds
          simp at h
          obtain ⟨hm, hrest⟩ := h
          subst hm hrest
          have hds' : r2.takeWhile Char.isDigit ≠ [] := by
            intro hx
            rw [List.isEmpty_iff] at hds
            exact hds hx
          have hdig : ∀ c ∈ r2.takeWhile Char.isDigit, c.isDigit = true :=
            fun c hc => List.mem_takeWhile_imp hc
          have hl := (stripCI_spec _ _ _ _ h1).1
          refine ⟨?_, ?_, ?_, mk, r2.takeWhile Char.isDigit, rfl, hds', hdig⟩
          · rw [hl]
            conv_lhs => rw [← List.takeWhile_append_dropWhile Char.isDigit r2]
            simp [List.append_assoc]
          · unfold keyToken matchKeyAt
            rw [stripCI_replay _ _ _ _ h1]
            simp only
            rw [(takeWhile_of_all _ hdig).1, (takeWhile_of_all _ hdig).2]
            simp [List.isEmpty_iff, hds']
          · simp
      · exfalso
        cases c with
        | mk v hv =>
          revert h
          split
          · rename_i r2' heq
            intro h
            injection heq with hc' _
            exact hc (hc' ▸ rfl)
          · intro h; simp at h

theorem findKey_spec : ∀ l m, findKey l = some m →
    keyToken m = true ∧ ∃ pre rest, l = pre ++ (m ++ rest) := by
  intro l
  induction l with
  | nil => intro m h; simp [findKey] at h
  | cons c t ih =>
    intro m h
    unfold findKey at h
    cases hm : matchKeyAt (c :: t) with
    | some pr =>
      obtain ⟨m', rest'⟩ := pr
      rw [hm] at h
      simp at h
      subst h
      obtain ⟨he, hk, _, _⟩ := matchKeyAt_spec _ _ _ hm
      exact ⟨hk, [], rest', by simpa using he⟩
    | none =>
      rw [hm] at h
      simp only at h
      obtain ⟨hk, pre, rest, he⟩ := ih m h
      exact ⟨hk, c :: pre, rest, by simp [he]⟩

theorem exactKeyTest_spec (q : String) (h : exactKeyTest q = true) :
    keyToken (trimChars q.data) = true ∧
      ∃ pre rest, q.data = pre ++ (trimChars q.data ++ rest) := by
  unfold exactKeyTest at h
  cases hm : matchKeyAt (q.data.dropWhile isWS) with
  | none => rw [hm] at h; simp at h
  | some pr =>
    obtain ⟨m, rest0⟩ := pr
    rw [hm] at h
    simp only at h
    obtain ⟨he, hk, hne, mk, ds, hmeq, hdsne, hdig⟩ := matchKeyAt_spec _ _ _ hm
    have hws : ∀ c ∈ rest0, isWS c = true := by
      intro c hc
      exact List.all_eq_true.mp h c hc
    obtain ⟨d, ds', hds⟩ : ∃ d ds', ds.reverse = d :: ds' := by
      cases hr : ds.reverse with
      | nil => exact absurd (by simpa using hr) hdsne
      | cons d ds' => exact ⟨d, ds', rfl⟩
    have hd : d.isDigit = true := by
      have : d ∈ ds.reverse := by rw [hds]; simp
      exact hdig d (by simpa using this)
    obtain ⟨tl, hrev⟩ : ∃ tl, m.reverse = d :: tl := by
      refine ⟨ds' ++ '-' :: mk.reverse, ?_⟩
      rw [hmeq]
      simp [hds]
    have htrim : trimChars q.data = m := by
      unfold trimChars
      rw [he]
      rw [List.reverse_append]
      rw [dropWhile_append_of_all _ _ (by intro c hc; exact hws c (by simpa using hc))]
      rw [hrev, List.dropWhile_cons, isWS_of_isDigit hd]
      simp only [Bool.false_eq_true, if_false]
      rw [← hrev, List.reverse_reverse]
    rw [htrim]
    refine ⟨hk, q.data.takeWhile isWS, rest0, ?_⟩
    conv_lhs => rw [← List.takeWhile_append_dropWhile isWS q.data, he]

/-! ## Safe JQL templates (source lines 169-183) -/

namespace safeJqlTemplates

def PROJECT_STATUS : String := "project = " ++ JIRA_PROJECT_KEY ++ " ORDER BY updated DESC"

def TIMELINE : String :=
  "project = " ++ JIRA_PROJECT_KEY ++ " AND duedate IS NOT EMPTY ORDER BY duedate ASC"

def TIMELINE_UPCOMING : String :=
  "project = " ++ JIRA_PROJECT_KEY ++ " AND duedate >= now() ORDER BY duedate ASC"

def TIMELINE_OVERDUE : String :=
  "project = " ++ JIRA_PROJECT_KEY ++
    " AND duedate < now() AND status != \"Done\" ORDER BY duedate ASC"

def BLOCKERS : String :=
  "project = " ++ JIRA_PROJECT_KEY ++
    " AND (priority in (\"High\", \"Highest\") OR status = \"Blocked\" OR labels = \"blocker\")" ++
    " AND status not in (\"Done\", \"Closed\", \"Resolved\")"

def HIGH_PRIORITY : String :=
  "project = " ++ JIRA_PROJECT_KEY ++
    " AND priority in (\"High\", \"Highest\") AND status not in (\"Done\", \"Closed\", \"Resolved\")"

def OPEN_TASKS : String :=
  "project = " ++ JIRA_PROJECT_KEY ++
    " AND status in (\"Open\", \"In Progress\", \"To Do\", \"Reopened\")"

def CLOSED_TASKS : String :=
  "project = " ++ JIRA_PROJECT_KEY ++ " AND status in (\"Done\", \"Closed\", \"Resolved\")"

def ASSIGNED_TASKS : String :=
  "project = " ++ JIRA_PROJECT_KEY ++
    " AND assignee IS NOT EMPTY AND status not in (\"Done\", \"Closed\", \"Resolved\")"

def UNASSIGNED_TASKS : String :=
  "project = " ++ JIRA_PROJECT_KEY ++
    " AND assignee IS EMPTY AND status not in (\"Done\", \"Closed\", \"Resolved\")"

def RECENT_UPDATES : String := "project = " ++ JIRA_PROJECT_KEY ++ " ORDER BY updated DESC"

def CURRENT_SPRINT : String := "project = " ++ JIRA_PROJECT_KEY ++ " AND sprint in openSprints()"

def MOST_RECENT_TASK : String := "project = " ++ JIRA_PROJECT_KEY ++ " ORDER BY updated DESC"

end safeJqlTemplates

/-! ## `fallbackGenerateJQL` (source lines 186-214) -/

/-- `fallbackGenerateJQL(query, intent)`: deterministic template selection
by intent and then by query keywords, defaulting to the project overview. -/
def fallbackGenerateJQL (query0 intent : String) : String :=
  let query : String := ⟨query0.data.map Char.toLower⟩
  if intent == "PROJECT_STATUS" then safeJqlTemplates.PROJECT_STATUS
  else if intent == "TIMELINE" then safeJqlTemplates.TIMELINE
  else if intent == "BLOCKERS" then safeJqlTemplates.BLOCKERS
  else if intent == "TASK_LIST" && rtest (rstrs ["open", "active", "current"]) query then
    safeJqlTemplates.OPEN_TASKS
  else if intent == "TASK_LIST"
      && rtest (rstrs ["closed", "completed", "done", "resolved"]) query then
    safeJqlTemplates.CLOSED_TASKS
  else if intent == "TASK_LIST"
      && rtest (rstrs ["high", "important", "critical", "priority"]) query then
    safeJqlTemplates.HIGH_PRIORITY
  else if intent == "TASK_LIST" && rtest (rstrs ["unassigned", "without assignee"]) query then
    safeJqlTemplates.UNASSIGNED_TASKS
  else if intent == "ASSIGNED_TASKS" then safeJqlTemplates.ASSIGNED_TASKS
  else if intent == "SPRINT" then safeJqlTemplates.CURRENT_SPRINT
  else if intent == "WORKLOAD" then safeJqlTemplates.ASSIGNED_TASKS
  else if rtest (rstrs ["timeline", "deadline", "due", "schedule"]) query then
    safeJqlTemplates.TIMELINE
  else if rtest (rstrs ["blocker", "blocking", "impediment", "risk"]) query then
    safeJqlTemplates.BLOCKERS
  else if rtest (rstrs ["high", "priority", "important", "urgent", "critical"]) query then
    safeJqlTemplates.HIGH_PRIORITY
  else if rtest (rstrs ["open", "active", "current"]) query
      && rtest (rstrs ["task", "issue", "ticket"]) query then
    safeJqlTemplates.OPEN_TASKS
  else if rtest (rstrs ["closed", "completed", "done", "resolved"]) query then
    safeJqlTemplates.CLOSED_TASKS
  else if rtest (rstrs ["assign", "work", "responsible"]) query then
    safeJqlTemplates.ASSIGNED_TASKS
  else if rtest (rstrs ["recent", "latest", "new", "update"]) query then
    safeJqlTemplates.RECENT_UPDATES
  else if rtest (rstr "sprint") query then safeJqlTemplates.CURRENT_SPRINT
  else safeJqlTemplates.PROJECT_STATUS

/-! ## `analyzeQueryIntent` (source lines 243-362) -/

/-- Result of an external call that either resolves with a value or
rejects. -/
inductive ExtCall (α : Type)
  | ok (a : α)
  | err

/-- The TASK_DETAILS confirmation regex of `analyzeQueryIntent`
(source line 254). The regex literal contains an un-interpolated
`${process.env.JIRA_PROJECT_KEY}`; its `$` is an end-of-input assertion
followed by further required characters, so the pattern matches no
string at all. -/
def taskDetailsPhrase (_ : String) : Bool := false

/-- `/project.* status|status.* project|how.* project|project.* health|project.* overview/i`. -/
def projectStatusRe : Re :=
  ralts [.seq (rstr "project") (.seq (.star rdot) (rstr " status")),
    .seq (rstr "status") (.seq (.star rdot) (rstr " project")),
    .seq (rstr "how") (.seq (.star rdot) (rstr " project")),
    .seq (rstr "project") (.seq (.star rdot) (rstr " health")),
    .seq (rstr "project") (.seq (.star rdot) (rstr " overview"))]

/-- `/timeline|roadmap|schedule|deadline|due date|what.* due|calendar|when/i`. -/
def timelineIntentRe : Re :=
  ralts [rstr "timeline", rstr "roadmap", rstr "schedule", rstr "deadline", rstr "due date",
    .seq (rstr "what") (.seq (.star rdot) (rstr " due")), rstr "calendar", rstr "when"]

/-- `/workload|capacity|bandwidth|overloaded|busy|who.*working|team.* work/i`. -/
def workloadIntentRe : Re :=
  ralts [rstr "workload", rstr "capacity", rstr "bandwidth", rstr "overloaded", rstr "busy",
    .seq (rstr "who") (.seq (.star rdot) (rstr "working")),
    .seq (rstr "team") (.seq (.star rdot) (rstr " work"))]

/-- `/assign|working on|responsible|owner|who is|who's/i`. -/
def assignedIntentRe : Re :=
  rstrs ["assign", "working on", "responsible", "owner", "who is", "who" ++ ap ++ "s"]

/-- `analyzeQueryIntent(query)`, with the generative classification call an
explicit parameter: deterministic pattern rules first, then the model's
(trimmed) answer, and on model failure the deterministic keyword fallback
defaulting to GENERAL. -/
def analyzeQueryIntent (ai : ExtCall String) (query : String) : String :=
  if rtest (rstrs ["sprint", "current sprint", "active sprint", "sprint status",
      "sprint board"]) query then "SPRINT"
  else if rtestStart (rstrs ["hi", "hello", "hey", "hi there", "greetings", "how are you",
      "what can you do", "what do you do", "help me", "how do you work"]) (jsTrim query) then
    "GREETING"
  else if hasIssueKey query && taskDetailsPhrase (jsTrim query) then "TASK_DETAILS"
  else if rtest projectStatusRe query then "PROJECT_STATUS"
  else if rtest timelineIntentRe query then "TIMELINE"
  else if rtest (rstrs ["block", "blocker", "blocking", "stuck", "impediment", "obstacle",
      "risk", "critical", "prevent"]) query then "BLOCKERS"
  else if rtest workloadIntentRe query then "WORKLOAD"
  else if rtest assignedIntentRe query then "ASSIGNED_TASKS"
  else if rtest (rstrs ["list", "show", "find", "search", "get", "all", "open", "closed",
      "high"]) query && rtest (rstrs ["task", "issue", "ticket"]) query then "TASK_LIST"
  else if rtest (rstrs ["comment", "said", "mentioned", "update", "notes"]) query then
    "COMMENTS"
  else
    match ai with
    | .ok s => jsTrim s
    | .err =>
      if rtest timelineIntentRe query then "TIMELINE"
      else if rtest (rstrs ["block", "blocker", "blocking", "stuck", "impediment", "obstacle",
          "risk", "critical"]) query then "BLOCKERS"
      else if rtest assignedIntentRe query then "ASSIGNED_TASKS"
      else if rtest (rstrs ["status", "progress", "update", "how is", "how" ++ ap ++ "s",
          "overview"]) query then "PROJECT_STATUS"
      else if rtest (rstrs ["list", "show", "find", "search", "get", "all"]) query then
        "TASK_LIST"
      else if rtest (rstrs ["comment", "said", "mentioned", "update", "notes"]) query then
        "COMMENTS"
      else if rtest (rstrs ["workload", "capacity", "bandwidth", "overloaded", "busy"])
          query then "WORKLOAD"
      else if rtest (rstr "sprint") query then "SPRINT"
      else "GENERAL"

/-! ## `generateJQL` (source lines 365-478) -/

/-- The deterministic part of `generateJQL` before the generative-synthesis
step: template lookup for canonical phrases, direct and contained issue-key
detection, intent shortcuts and the recent-task heuristic. `generative`
means the function proceeds to the model call. -/
inductive SynthStep
  | direct (jql : String)
  | generative

/-- The deterministic decision prefix of `generateJQL(query, intent)`. -/
def generateJQLDet (query intent : String) : SynthStep :=
  if query == "show project status" then .direct safeJqlTemplates.PROJECT_STATUS
  else if query == "show project timeline" then .direct safeJqlTemplates.TIMELINE
  else if query == "show upcoming deadlines" then .direct safeJqlTemplates.TIMELINE_UPCOMING
  else if query == "show project blockers" then .direct safeJqlTemplates.BLOCKERS
  else if query == "show high risk items" then .direct safeJqlTemplates.HIGH_PRIORITY
  else if query == "show team workload" then .direct safeJqlTemplates.ASSIGNED_TASKS
  else if query == "show open tasks" then .direct safeJqlTemplates.OPEN_TASKS
  else if query == "show closed tasks" then .direct safeJqlTemplates.CLOSED_TASKS
  else if query == "show high priority tasks" then .direct safeJqlTemplates.HIGH_PRIORITY
  else if query == "show unassigned tasks" then .direct safeJqlTemplates.UNASSIGNED_TASKS
  else if query == "show recent updates" then .direct safeJqlTemplates.RECENT_UPDATES
  else if query == "show current sprint" then .direct safeJqlTemplates.CURRENT_SPRINT
  else if query == "show most recently updated task" then
    .direct safeJqlTemplates.MOST_RECENT_TASK
  else if exactKeyTest query then .direct ("key = \"" ++ jsTrim query ++ "\"")
  else
    match findKey query.data with
    | some issueKey => .direct ("key = \"" ++ String.mk issueKey ++ "\"")
    | none =>
      if intent == "CONVERSATION" || intent == "GREETING" then
        .direct safeJqlTemplates.RECENT_UPDATES
      else if intent == "SPRINT" then .direct safeJqlTemplates.CURRENT_SPRINT
      else if intent == "PROJECT_STATUS" then .direct safeJqlTemplates.PROJECT_STATUS
      else if rtest (rstrs ["recent", "latest", "most recent", "last", "newest"]) query
          && rtest (rstrs ["edited", "updated", "modified", "changed", "task"]) query then
        .direct safeJqlTemplates.MOST_RECENT_TASK
      else .generative

/-- `generateJQL(query, intent)` with the generative synthesis call an
explicit parameter: a `direct` decision is returned as is; otherwise the
model's answer is trimmed and sanitized, and on model failure the
deterministic `fallbackGenerateJQL` is used (the `catch` of the source). -/
def generateJQL (ai : ExtCall String) (query intent : String) : String :=
  match generateJQLDet query intent with
  | .direct j => j
  | .generative =>
    match ai with
    | .ok content => sanitizeJQL (jsTrim content)
    | .err => fallbackGenerateJQL query intent

/-! ## C5 and C6 -/

/-- The closed Intent enumeration of the specification. -/
def intentValues : List String :=
  ["PROJECT_STATUS", "TASK_LIST", "ASSIGNED_TASKS", "TASK_DETAILS", "BLOCKERS", "TIMELINE",
   "COMMENTS", "WORKLOAD", "SPRINT", "GREETING", "CONVERSATION", "GENERAL"]

/-- C6: the Intent Classifier is total on classifier failure — whatever the
input query text, when the generative classification call fails the
classifier still returns one member of the closed Intent enumeration (the
deterministic rules and the keyword fallback only ever produce enumeration
members, with GENERAL as the default), and (being a total function of the
embedding) never throws. -/
theorem ite_mem {c : Prop} [Decidable c] {α : Type} {a b : α} {l : List α}
    (ha : a ∈ l) (hb : b ∈ l) : (if c then a else b) ∈ l := by
  split <;> assumption

theorem C6_classifier_total_on_failure (q : String) :
    analyzeQueryIntent ExtCall.err q ∈ intentValues := by
  unfold analyzeQueryIntent
  dsimp only
  repeat' apply ite_mem
  all_goals decide

theorem generateJQLDet_key (q intent : String) (hk : hasIssueKey q = true) :
    ∃ tok : List Char, keyToken tok = true ∧ (∃ pre rest, q.data = pre ++ (tok ++ rest))
      ∧ generateJQLDet q intent = .direct ("key = \"" ++ String.mk tok ++ "\"") := by
  have hcanon : ∀ (c : String), hasIssueKey c = false → q ≠ c := by
    intro c hc he
    rw [he, hc] at hk
    exact absurd hk (by simp)
  unfold generateJQLDet
  rw [if_neg (by simpa using hcanon "show project status" (by decide))]
  rw [if_neg (by simpa using hcanon "show project timeline" (by decide))]
  rw [if_neg (by simpa using hcanon "show upcoming deadlines" (by decide))]
  rw [if_neg (by simpa using hcanon "show project blockers" (by decide))]
  rw [if_neg (by simpa using hcanon "show high risk items" (by decide))]
  rw [if_neg (by simpa using hcanon "show team workload" (by decide))]
  rw [if_neg (by simpa using hcanon "show open tasks" (by decide))]
  rw [if_neg (by simpa using hcanon "show closed tasks" (by decide))]
  rw [if_neg (by simpa using hcanon "show high priority tasks" (by decide))]
  rw [if_neg (by simpa using hcanon "show unassigned tasks" (by decide))]
  rw [if_neg (by simpa using hcanon "show recent updates" (by decide))]
  rw [if_neg (by simpa using hcanon "show current sprint" (by decide))]
  rw [if_neg (by simpa using hcanon "show most recently updated task" (by decide))]
  by_cases hex : exactKeyTest q = true
  · rw [if_pos hex]
    obtain ⟨hkt, pre, rest, he⟩ := exactKeyTest_spec q hex
    exact ⟨trimChars q.data, hkt, ⟨pre, rest, he⟩, rfl⟩
  · rw [if_neg hex]
    cases hf : findKey q.data with
    | none => rw [hasIssueKey, hf] at hk; exact absurd hk (by simp)
    | some m =>
      obtain ⟨hkt, pre, rest, he⟩ := findKey_spec _ _ hf
      exact ⟨m, hkt, ⟨pre, rest, he⟩, rfl⟩

/-- C5: for every query text containing an issue-key token and for every
Intent value (and whatever the generative synthesizer would have answered),
the Synthesizer returns the key-equality structured query for a key token
occurring in the query, bypassing intent-keyed templates and generative
synthesis. -/
theorem C5_issue_key_bypass (q intent : String) (ai : ExtCall String)
    (hk : hasIssueKey q = true) :
    ∃ tok : List Char, keyToken tok = true ∧ (∃ pre rest, q.data = pre ++ (tok ++ rest))
      ∧ generateJQL ai q intent = "key = \"" ++ String.mk tok ++ "\"" := by
  obtain ⟨tok, hkt, hinf, hdet⟩ := generateJQLDet_key q intent hk
  exact ⟨tok, hkt, hinf, by unfold generateJQL; rw [hdet]⟩

/-- C5, witness: the claim's concrete scenario — the input `"NIHK-42"`
contains an issue key, the theorem applies at it (and at an arbitrary
Intent), and the Synthesizer's output is `key = "NIHK-42"` regardless of
the classified Intent. -/
theorem C5_witness :
    hasIssueKey "NIHK-42" = true
    ∧ (∃ tok : List Char, keyToken tok = true
        ∧ (∃ pre rest, ("NIHK-42" : String).data = pre ++ (tok ++ rest))
        ∧ generateJQL ExtCall.err "NIHK-42" "GREETING" = "key = \"" ++ String.mk tok ++ "\"")
    ∧ generateJQL ExtCall.err "NIHK-42" "GREETING" = "key = \"NIHK-42\""
    ∧ generateJQL ExtCall.err "NIHK-42" "TASK_LIST" = "key = \"NIHK-42\"" :=
  ⟨by decide, C5_issue_key_bypass "NIHK-42" "GREETING" ExtCall.err (by decide),
    by decide, by decide⟩

/-! ## `extractTextFromADF` (source lines 41-81)

Atlassian-Document-Format values are JSON-like trees. -/

/-- A JSON-like value as handled by the rich-document extractor, with
JavaScript's `undefined` distinguished from `null`. -/
inductive JVal
  | undefined
  | null
  | bool (b : Bool)
  | num (n : Int)
  | str (s : String)
  | arr (elems : List JVal)
  | obj (fields : List (String × JVal))

/-- JavaScript truthiness of a value. -/
def truthy : JVal → Bool
  | .undefined => false
  | .null => false
  | .bool b => b
  | .num n => n != 0
  | .str s => !s.isEmpty
  | .arr _ => true
  | .obj _ => true

/-- JavaScript property access `v.name` (such accesses in the source are
always guarded so that `v` is neither `null` nor `undefined`); a missing
property or a primitive receiver yields `undefined`. -/
def getField (v : JVal) (name : String) : JVal :=
  match v with
  | .obj fields =>
    match fields.find? (fun p => p.1 == name) with
    | some p => p.2
    | none => .undefined
  | _ => .undefined

/-- `Array.isArray`. -/
def isArray : JVal → Bool
  | .arr _ => true
  | _ => false

/-- The element list of an array value (the source only maps over values
it has checked — or whose well-formed rich-document shape guarantees — to
be arrays). -/
def arrElems : JVal → List JVal
  | .arr l => l
  | _ => []

/-- JavaScript strict equality `v === "s"` against a string literal. -/
def isStr (v : JVal) (s : String) : Bool :=
  match v with
  | .str t => t == s
  | _ => false

/-- The string carried by an ADF text node. -/
def textOf : JVal → String
  | .str s => s
  | _ => ""

theorem getField_sizeOf_lt (v : JVal) (name : String) (elems : List JVal)
    (h : getField v name = JVal.arr elems) : sizeOf (JVal.arr elems) < sizeOf v := by
  cases v with
  | obj fields =>
    simp only [getField] at h
    cases hf : fields.find? (fun p => p.1 == name) with
    | none => rw [hf] at h; exact absurd h (by simp)
    | some p =>
      rw [hf] at h
      simp only at h
      have hmem : p ∈ fields := List.mem_of_find?_eq_some hf
      have h1 : sizeOf p < sizeOf fields := List.sizeOf_lt_of_mem hmem
      obtain ⟨a, b⟩ := p
      simp only at h
      subst h
      simp only [Prod.mk.sizeOf_spec, JVal.obj.sizeOf_spec] at h1 ⊢
      omega
  | undefined => exact absurd h (by simp [getField])
  | null => exact absurd h (by simp [getField])
  | bool b => exact absurd h (by simp [getField])
  | num n => exact absurd h (by simp [getField])
  | str s => exact absurd h (by simp [getField])
  | arr l => exact absurd h (by simp [getField])

/-- The recursive `processNode` helper: a node's own text wins; otherwise
the concatenated texts of its content-array children (the source's
`node.content && Array.isArray(node.content)` holds exactly when the
`content` property is an array); otherwise the empty string. -/
def processNode (v : JVal) : String :=
  if truthy (getField v "text") then textOf (getField v "text")
  else
    match h : getField v "content" with
    | .arr elems => String.join (elems.attach.map fun x => processNode x.1)
    | _ => ""
termination_by sizeOf v
decreasing_by
  have h1 := getField_sizeOf_lt v "content" elems h
  have h2 : sizeOf x.1 < sizeOf (JVal.arr elems) := by
    have := List.sizeOf_lt_of_mem x.2
    simp only [JVal.arr.sizeOf_spec]
    omega
  omega

/-- `extractTextFromADF(adf)` (source lines 41-81): guard against an absent
or malformed document, then render each top-level block (paragraphs and
text directly, list items with a bullet, any other block with content by
concatenating its children), and trim the result. -/
def extractTextFromADF (adf : JVal) : String :=
  if !truthy adf || !truthy (getField adf "content") || !isArray (getField adf "content") then
    ""
  else
    let blocks := arrElems (getField adf "content")
    let result := blocks.foldl (fun acc block =>
      if isStr (getField block "type") "paragraph" || isStr (getField block "type") "text" then
        acc ++ processNode block ++ "\n"
      else if isStr (getField block "type") "bulletList"
          || isStr (getField block "type") "orderedList" then
        if truthy (getField block "content") then
          acc ++ String.join ((arrElems (getField block "content")).map fun item =>
            if isStr (getField item "type") "listItem"
                && truthy (getField item "content") then
              "• " ++ String.join ((arrElems (getField item "content")).map processNode)
                ++ "\n"
            else "")
        else acc
      else if truthy (getField block "content") then
        acc ++ String.join ((arrElems (getField block "content")).map processNode) ++ "\n"
      else acc) ""
    jsTrim result

/-- C10: the rich-document text extractor is total at its guard — for every
argument that is falsy (`null`/`undefined`) or whose `content` property is
not an array (in particular absent), `extractTextFromADF` returns the empty
string instead of failing. -/
theorem C10_adf_guard (adf : JVal)
    (h : truthy adf = false ∨ ∀ elems, getField adf "content" ≠ JVal.arr elems) :
    extractTextFromADF adf = "" := by
  unfold extractTextFromADF
  rcases h with h | h
  · rw [h]
    simp
  · have harr : isArray (getField adf "content") = false := by
      cases hg : getField adf "content" with
      | arr elems => exact absurd hg (h elems)
      | _ => simp [isArray]
    rw [harr]
    simp

/-- C10, witness: the guard theorem applied to the null document and to a
document whose `content` is a (truthy) non-array. -/
theorem C10_witness :
    truthy JVal.null = false
    ∧ extractTextFromADF JVal.null = ""
    ∧ extractTextFromADF (JVal.obj [("content", JVal.str "nope")]) = "" :=
  ⟨by decide, C10_adf_guard .null (Or.inl (by decide)),
    C10_adf_guard (JVal.obj [("content", JVal.str "nope")])
      (Or.inr (by
        intro elems hx
        rw [show getField (JVal.obj [("content", JVal.str "nope")]) "content"
          = JVal.str "nope" from rfl] at hx
        exact absurd hx (by simp)))⟩

/-! ## The `/api/query` request handler (source lines 1553-2391)

The handler is an `async` pipeline whose external interactions — the
generative-model calls, the remote search calls, `Math.random` and date
formatting — are collected in an `Oracle` record; a call either resolves
(`ExtCall.ok`) or rejects (`ExtCall.err`), and `try/catch` is `Except`.
The per-session mutable record is threaded explicitly. -/

/-- One comment of an issue record (`author?.displayName`, `created`,
and a `body` that is either a plain string or a rich-format value). -/
structure Comment where
  authorName : Option String
  created : String
  body : JVal

/-- An issue record, reduced to the fields the handler consumes. -/
structure Issue where
  key : String
  summary : String
  statusName : Option String
  assigneeName : Option String
  priorityName : Option String
  createdAt : String
  updatedAt : String
  duedate : Option String
  description : JVal
  comments : List Comment

/-- A remote search result: `{ issues, total }`. -/
structure SearchData where
  issues : List Issue
  total : Nat

/-- The compiled metrics of the project-status overview (the seven
parallel searches of `getProjectStatusOverview`, which `Promise.all`
resolves or rejects as one). -/
structure StatusMetrics where
  openTotal : Nat
  inProgressTotal : Nat
  doneTotal : Nat
  highPriorityIssues : List Issue
  highPriorityTotal : Nat
  blockedIssues : List Issue
  blockedTotal : Nat
  unassignedIssues : List Issue
  unassignedTotal : Nat
  recentIssues : List Issue
  recentTotal : Nat

/-- An agile-board sprint (`{ id, name }`). -/
structure Sprint where
  id : Nat
  name : String

/-- The `rawData` payload attached to some responses. -/
inductive RawPayload
  | search (d : SearchData)
  | issue (i : Issue)
  | status (m : StatusMetrics)

/-- What the handler sends: `res.json({...})` with a message (HTTP 200),
or `res.status(code).json({...})`. -/
inductive Response
  | json (message : String) (rawData : Option RawPayload)
  | statusJson (code : Nat) (message : String)

/-- The message of a response. -/
def Response.message : Response → String
  | .json m _ => m
  | .statusJson _ m => m

/-- One entry of `conversationMemory`: the bounded query and intent
histories, the last rendered response, and the pending recovery note. -/
structure Session where
  queries : List String
  intents : List String
  lastResponse : Option String
  note : Option String

/-- A fresh session (`{ queries: [], intents: [], lastResponse: null }`). -/
def Session.fresh : Session := ⟨[], [], none, none⟩

/-- The bounded history push: `list.push(x); if (list.length > 10)
list.shift()`. -/
def pushCapped (l : List String) (x : String) : List String :=
  let l' := l ++ [x]
  if l'.length > 10 then l'.tail else l'

/-- All external interactions of one request, in program order. Search
calls take the structured-query string they are invoked with. -/
structure Oracle where
  localeDate : String → String
  monthYear : String → String
  rand : Nat
  mostRecentSearch : ExtCall SearchData
  statusData : ExtCall StatusMetrics
  statusAI : ExtCall String
  timelineSearch : ExtCall SearchData
  timelineAI : ExtCall String
  workloadSearch : ExtCall SearchData
  workloadAI : ExtCall String
  classifyAI : ExtCall String
  boards : ExtCall (List Nat)
  sprints : ExtCall (List Sprint)
  sprintIssues : ExtCall (List Issue)
  sprintFallbackSearch : ExtCall SearchData
  sprintAI : ExtCall String
  issueFetch : ExtCall Issue
  issueAI : ExtCall String
  convSearch : ExtCall SearchData
  convAI : ExtCall String
  jqlAI : ExtCall String
  search1 : String → ExtCall SearchData
  search2 : String → ExtCall SearchData
  renderAI : ExtCall String
  basicSearch : ExtCall SearchData

/-- `pool[Math.floor(Math.random() * pool.length)]`. -/
def pick (l : List String) (r : Nat) : String :=
  l.getD (r % l.length) ""

theorem pick_mem (l : List String) (r : Nat) (h : l ≠ []) : pick l r ∈ l := by
  unfold pick
  have hl : 0 < l.length := List.length_pos.mpr h
  have hr : r % l.length < l.length := Nat.mod_lt r hl
  rw [List.getD_eq_getElem l "" hr]
  exact List.getElem_mem hr

/-- Insertion-ordered grouping (the JavaScript object-as-map idiom used
throughout the renderers). -/
def groupByKey {α : Type} (key : α → String) (l : List α) : List (String × List α) :=
  l.foldl (fun acc x =>
    let k := key x
    if acc.any (fun p => p.1 == k) then
      acc.map (fun p => if p.1 == k then (p.1, p.2 ++ [x]) else p)
    else acc ++ [(k, [x])]) []

/-- The canned greeting pool (source lines 1622-1628, repeated verbatim at
1112-1118 inside `generateResponse`). -/
def greetingResponses : List String :=
  ["Hi there! I" ++ ap ++ "m your Jira assistant. I can help you with:\n\n• Finding tasks and issues\n• Checking project status\n• Understanding who" ++ ap ++ "s working on what\n• Tracking blockers and high-priority items\n• Monitoring deadlines and timelines\n\nJust ask me a question about your Jira project!",
   "Hello! I" ++ ap ++ "m here to help you navigate your Jira project. You can ask me about:\n\n• Open and closed tasks\n• Task assignments and ownership\n• Project timelines and deadlines\n• High priority issues and blockers\n• Recent updates and changes\n\nWhat would you like to know about your project today?",
   "Hey! I" ++ ap ++ "m your Jira chatbot assistant. Some things you can ask me:\n\n• \"What" ++ ap ++ "s the status of our project?\"\n• \"Show me open bugs assigned to Sarah\"\n• \"Any blockers in the current sprint?\"\n• \"Tell me about NIHK-123\"\n• \"What" ++ ap ++ "s due this week?\"\n\nHow can I help you today?"]

/-- The conversational fallback pool (source lines 2092-2097). -/
def conversationalResponses : List String :=
  ["I" ++ ap ++ "m here to help with your Jira project. Could you ask me something specific about your tasks or project status?",
   "I" ++ ap ++ "d be happy to help you with your Jira project. What would you like to know about your issues or project?",
   "I can provide information about your Jira tasks, assignments, deadlines, and more. What are you looking for?",
   "I" ++ ap ++ "m your Jira assistant. I can tell you about task status, assignments, priorities, and more. What would you like to know?"]

/-- The last-resort conversational pool of the outer catch (source lines
2379-2384). -/
def friendlyResponses : List String :=
  ["I" ++ ap ++ "m focusing on active issues in the project right now. Would you like to see recent updates or high priority items?",
   "I" ++ ap ++ "d be happy to help you explore the project data. Could you ask me about project status, tasks, deadlines, or team workload?",
   "Let me help you navigate your Jira project. You can ask me about project status, tasks, deadlines, team assignments, and more.",
   "I" ++ ap ++ "m here to help you with your Jira project information. What would you like to know about your tasks or project status?"]

/-- The outer catch's recovery openings (source lines 2352-2357). -/
def relevantInfo : List String :=
  ["I couldn" ++ ap ++ "t find exactly what you were looking for, but here are some recent items that might be helpful:",
   "Let me show you some recent activity in the project that might be relevant:",
   "While I couldn" ++ ap ++ "t answer your specific question, here are some recent updates in the project:",
   "I found some recent project activity that might interest you:"]

/-- The no-result pool of `generateResponse`'s fallback (source lines
1365-1370). -/
def noResultsResponses : List String :=
  ["I couldn" ++ ap ++ "t find any issues matching your criteria. Would you like to try a different search?",
   "I looked, but didn" ++ ap ++ "t find any matching issues in Jira. Could you try rephrasing your question?",
   "No results found for that query. Maybe we could try a broader search?",
   "I don" ++ ap ++ "t see any issues that match what you" ++ ap ++ "re looking for. Let me know if you" ++ ap ++ "d like to try a different approach."]

/-- The varied openings of the default deterministic renderer (source
lines 1509-1515). -/
def openingPhrases (issueCount : Nat) : List String :=
  ["I found " ++ toString issueCount ++ " issues related to your query.",
   "There are " ++ toString issueCount ++ " issues that match what you" ++ ap ++ "re looking for.",
   "Your search returned " ++ toString issueCount ++ " issues.",
   "I" ++ ap ++ "ve located " ++ toString issueCount ++ " relevant issues in the project.",
   "Looking at your query, I found " ++ toString issueCount ++ " matching issues."]

/-- The varied closings of the default deterministic renderer (source
lines 1534-1540). -/
def closingPrompts : List String :=
  ["Is there a specific issue you" ++ ap ++ "d like to know more about?",
   "Would you like details about any of these issues?",
   "Let me know if you need more information on any particular issue.",
   "I can tell you more about any of these issues if you" ++ ap ++ "re interested.",
   "Would you like to dive deeper into any of these?"]

/-- Shorthands for the defaulted display fields. -/
def Issue.status (i : Issue) : String := i.statusName.getD "Unknown"

/-- `issue.fields.assignee?.displayName || "Unassigned"`. -/
def Issue.assignee (i : Issue) : String := i.assigneeName.getD "Unassigned"

/-- `generateResponse(query, jiraData, intent, context)` (source lines
1101-1546), with the generative call an explicit parameter. The greeting
and conversational intents use canned material; otherwise the model's
trimmed answer is preferred, and on model failure an intent-specific
deterministic formatter renders the data. The conversation-context
argument only feeds the model prompt and has no observable effect here. -/
def generateResponse (o : Oracle) (ai : ExtCall String) (jiraData : Option SearchData)
    (intent : String) : String :=
  match jiraData with
  | none => "I couldn" ++ ap ++ "t find any relevant information for your query."
  | some data =>
    let issueCount := data.issues.length
    let totalCount := data.total
    if intent == "GREETING" then pick greetingResponses o.rand
    else if intent == "CONVERSATION" then
      match ai with
      | .ok content => jsTrim content
      | .err => "I" ++ ap ++ "m here to help with your Jira queries. What would you like to know about your project?"
    else
      match ai with
      | .ok content => jsTrim content
      | .err =>
        if issueCount == 0 then pick noResultsResponses o.rand
        else if intent == "PROJECT_STATUS" then
          let statusCounts := groupByKey Issue.status data.issues
          "## Project Status Overview\n\n"
            ++ "Here" ++ ap ++ "s the current status of the project:\n\n"
            ++ String.join (statusCounts.map fun p =>
                "• **" ++ p.1 ++ "**: " ++ toString p.2.length ++ " issues\n")
            ++ "\n### Recent Activity\n"
            ++ String.join ((data.issues.take 3).map fun i =>
                "• " ++ i.key ++ ": " ++ i.summary ++ " (" ++ i.status ++ ")\n")
        else if intent == "TIMELINE" then
          let issuesByMonth := groupByKey
            (fun i => o.monthYear (i.duedate.getD ""))
            (data.issues.filter fun i => !(i.duedate.getD "").isEmpty)
          "## Project Timeline\n\n"
            ++ (if issuesByMonth.isEmpty then
                  "I didn" ++ ap ++ "t find any issues with due dates in the timeline."
                else String.join (issuesByMonth.map fun p =>
                  "### " ++ p.1 ++ "\n"
                    ++ String.join (p.2.map fun i =>
                        "• " ++ i.key ++ ": " ++ i.summary ++ " (Due: "
                          ++ o.localeDate (i.duedate.getD "") ++ ", " ++ i.status ++ ")\n")
                    ++ "\n"))
        else if intent == "BLOCKERS" || intent == "HIGH_PRIORITY" then
          "## Key Issues Requiring Attention\n\n"
            ++ "I found " ++ toString issueCount ++ " issues that need attention:\n\n"
            ++ String.join (data.issues.map fun i =>
                "• **" ++ i.key ++ "**: " ++ i.summary ++ " ("
                  ++ i.priorityName.getD "Unknown" ++ ", " ++ i.status
                  ++ ", Assigned to: " ++ i.assignee ++ ")\n")
        else if intent == "ASSIGNED_TASKS" || intent == "WORKLOAD" then
          let issuesByAssignee := groupByKey Issue.assignee data.issues
          "## Team Workload\n\n"
            ++ String.join (issuesByAssignee.map fun p =>
                "### " ++ p.1 ++ " (" ++ toString p.2.length ++ " issues)\n"
                  ++ String.join ((p.2.take 3).map fun i =>
                      "• " ++ i.key ++ ": " ++ i.summary ++ " (" ++ i.status ++ ")\n")
                  ++ (if p.2.length > 3 then
                        "... and " ++ toString (p.2.length - 3) ++ " more issues.\n"
                      else "")
                  ++ "\n")
        else
          let issuesByStatus := groupByKey Issue.status data.issues
          pick (openingPhrases issueCount) o.rand
            ++ (if totalCount > issueCount then
                  " (Out of " ++ toString totalCount ++ " total in the project)"
                else "")
            ++ "\n\n"
            ++ String.join (issuesByStatus.map fun p =>
                "**" ++ p.1 ++ "**:\n"
                  ++ String.join (p.2.map fun i =>
                      "• " ++ i.key ++ ": " ++ i.summary ++ " (Assigned to: "
                        ++ i.assignee ++ ")\n")
                  ++ "\n")
            ++ pick closingPrompts o.rand

/-- Extract a description field for display (source lines 503-514): a
falsy description gives the default text, a plain string is used as is,
and a rich value with truthy `content` goes through the extractor (whose
embedding is total, so the surrounding `catch` is unreachable). -/
def renderDescription (d : JVal) : String :=
  if truthy d then
    match d with
    | .str s => s
    | _ =>
      if truthy (getField d "content") then extractTextFromADF d
      else "No description provided."
  else "No description provided."

/-- Extract a comment body (source lines 525-533): empty for a body that
is neither a string nor a rich value with content. -/
def renderCommentBodyOrEmpty (b : JVal) : String :=
  match b with
  | .str s => s
  | _ =>
    if truthy b && truthy (getField b "content") then extractTextFromADF b
    else ""

/-- `getMostRecentTaskDetails` (source lines 481-567): on the search
succeeding with at least one issue, a formatted details message; on no
issues or a rejected search (its `catch`), `none` so the caller continues. -/
def getMostRecentTaskDetails (o : Oracle) : Option Response :=
  match o.mostRecentSearch with
  | .err => none
  | .ok data =>
    match data.issues with
    | [] => none
    | issue :: _ =>
      let summary := if issue.summary.isEmpty then "No summary" else issue.summary
      let description := renderDescription issue.description
      let commentMessage :=
        match issue.comments.getLast? with
        | none => "No comments found on this issue."
        | some latest =>
          "**Latest comment** (by " ++ latest.authorName.getD "Unknown" ++ " on "
            ++ o.localeDate latest.created ++ "):\n\""
            ++ renderCommentBodyOrEmpty latest.body ++ "\""
      let formattedResponse :=
        "## " ++ issue.key ++ ": " ++ summary ++ " (Most Recently Updated)\n\n"
          ++ "**Status**: " ++ issue.status ++ "\n"
          ++ "**Priority**: " ++ issue.priorityName.getD "Not set" ++ "\n"
          ++ "**Assignee**: " ++ issue.assignee ++ "\n"
          ++ "**Created**: " ++ o.localeDate issue.createdAt ++ "\n"
          ++ "**Last Updated**: " ++ o.localeDate issue.updatedAt ++ "\n\n"
          ++ "### Description\n" ++ description ++ "\n\n"
          ++ "### Latest Comment\n" ++ commentMessage
      some (Response.json formattedResponse (some (.issue issue)))

/-- `getProjectStatusOverview` (source lines 570-780): the seven parallel
metric searches resolve or reject as one; then the model-authored overview
(with high-priority and blocked appendices) or the deterministic metrics
summary. The completion percentage is `Math.round(done/total*100) || 0`. -/
def getProjectStatusOverview (o : Oracle) : Option Response :=
  match o.statusData with
  | .err => none
  | .ok sd =>
    let totalCount := sd.openTotal + sd.inProgressTotal + sd.doneTotal
    let completionPercentage :=
      if totalCount == 0 then 0 else (sd.doneTotal * 200 + totalCount) / (2 * totalCount)
    let formattedResponse :=
      match o.statusAI with
      | .ok content =>
        content
        ++ (if sd.highPriorityIssues.length > 0 then
              "\n\n### High Priority Issues\n"
                ++ String.join ((sd.highPriorityIssues.take 3).map fun i =>
                    "• " ++ i.key ++ ": " ++ i.summary ++ " ("
                      ++ i.priorityName.getD "High" ++ ", assigned to " ++ i.assignee ++ ")\n")
                ++ (if sd.highPriorityTotal > 3 then
                      "... and " ++ toString (sd.highPriorityTotal - 3)
                        ++ " more high priority issues.\n"
                    else "")
            else "")
        ++ (if sd.blockedIssues.length > 0 then
              "\n\n### Blocked Issues\n"
                ++ String.join ((sd.blockedIssues.take 3).map fun i =>
                    "• " ++ i.key ++ ": " ++ i.summary ++ " (assigned to " ++ i.assignee ++ ")\n")
                ++ (if sd.blockedTotal > 3 then
                      "... and " ++ toString (sd.blockedTotal - 3) ++ " more blocked issues.\n"
                    else "")
            else "")
      | .err =>
        "## Project Status Overview\n\n"
          ++ "**Current progress**: " ++ toString completionPercentage ++ "% complete\n"
          ++ "**Open tasks**: " ++ toString sd.openTotal ++ "\n"
          ++ "**In progress**: " ++ toString sd.inProgressTotal ++ "\n"
          ++ "**Completed**: " ++ toString sd.doneTotal ++ "\n\n"
          ++ (if sd.highPriorityTotal > 0 then
                "**High priority issues**: " ++ toString sd.highPriorityTotal ++ "\n" else "")
          ++ (if sd.blockedTotal > 0 then
                "**Blocked issues**: " ++ toString sd.blockedTotal ++ "\n" else "")
          ++ (if sd.unassignedTotal > 0 then
                "**Unassigned tasks**: " ++ toString sd.unassignedTotal ++ "\n" else "")
          ++ "\n### Recent Activity\n"
          ++ String.join ((sd.recentIssues.take 3).map fun i =>
              "• " ++ i.key ++ ": " ++ i.summary ++ " (" ++ i.status ++ ", updated on "
                ++ o.localeDate i.updatedAt ++ ")\n")
    some (Response.json formattedResponse (some (.status sd)))

/-- The timeframe selection of `getProjectTimeline` (source lines
786-808); the branch also chooses the structured query sent to the remote
search, which the embedding folds into the oracle's search outcome. -/
def timelineTimeframe (q : String) : String :=
  if rtest (rstrs ["past", "previous", "last", "recent"]) q then "past"
  else if rtest (ralts [rstr "overdue", rstr "late",
      .seq (rstr "miss") (ropt (rstr "ed")), rstr "behind"]) q then "overdue"
  else if rtest (rstrs ["this week", "current week"]) q then "this week"
  else if rtest (rstr "next week") q then "next week"
  else if rtest (rstrs ["this month", "current month"]) q then "this month"
  else "upcoming"

/-- `getProjectTimeline` (source lines 784-956): the timeline search (with
its inline simpler-query fallback folded into one oracle outcome) must
return at least one issue, then the model narrative or the deterministic
date-grouped listing; otherwise `none` and the caller continues. -/
def getProjectTimeline (o : Oracle) (query : String) : Option Response :=
  let timeframeDesc := timelineTimeframe query
  match o.timelineSearch with
  | .err => none
  | .ok data =>
    if data.issues.isEmpty then none
    else
      let issuesByDate := groupByKey
        (fun i => o.monthYear (i.duedate.getD ""))
        (data.issues.filter fun i => !(i.duedate.getD "").isEmpty)
      let formattedResponse :=
        match o.timelineAI with
        | .ok content => content
        | .err =>
          "## Project Timeline (" ++ timeframeDesc ++ ")\n\n"
            ++ (if issuesByDate.isEmpty then
                "No issues with due dates found in this timeframe."
              else String.join (issuesByDate.map fun p =>
                "### " ++ p.1 ++ "\n"
                  ++ String.join ((p.2.take 5).map fun i =>
                      "• " ++ i.key ++ ": " ++ i.summary ++ " (Due: "
                        ++ o.localeDate (i.duedate.getD "") ++ ", " ++ i.status
                        ++ ", Assigned to: " ++ i.assignee ++ ")\n")
                  ++ (if p.2.length > 5 then
                        "... and " ++ toString (p.2.length - 5) ++ " more items due in "
                          ++ p.1 ++ ".\n"
                      else "")
                  ++ "\n"))
      some (Response.json formattedResponse none)

/-- Does an issue carry High or Highest priority? -/
def isHighPriority (i : Issue) : Bool :=
  i.priorityName == some "Highest" || i.priorityName == some "High"

/-- `getTeamWorkload` (source lines 959-1098): the workload search must
return at least one issue, then the model narrative or the deterministic
per-assignee summary (assignees sorted by task count, descending, stable);
otherwise `none`. -/
def getTeamWorkload (o : Oracle) : Option Response :=
  match o.workloadSearch with
  | .err => none
  | .ok data =>
    if data.issues.isEmpty then none
    else
      let issuesByAssignee := groupByKey Issue.assignee data.issues
      let formattedResponse :=
        match o.workloadAI with
        | .ok content => content
        | .err =>
          let sortedAssignees :=
            issuesByAssignee.mergeSort (fun a b => b.2.length ≤ a.2.length)
          "## Team Workload Overview\n\n"
          ++ "Currently there are **" ++ toString data.issues.length
          ++ " active tasks** assigned across **" ++ toString sortedAssignees.length
          ++ " team members**.\n\n"
          ++ String.join (sortedAssignees.map fun p =>
              let highPriorityCount := (p.2.filter isHighPriority).length
              "### " ++ p.1 ++ "\n"
                ++ "**Total tasks**: " ++ toString p.2.length
                ++ (if highPriorityCount > 0 then
                      " (" ++ toString highPriorityCount ++ " high priority)" else "")
                ++ "\n\n"
                ++ String.join ((p.2.take 3).map fun t =>
                    "• " ++ t.key ++ ": " ++ t.summary ++ " (" ++ t.status
                      ++ (if !(t.priorityName.getD "").isEmpty then
                            ", " ++ t.priorityName.getD "" else "")
                      ++ ")\n")
                ++ (if p.2.length > 3 then
                      "... and " ++ toString (p.2.length - 3) ++ " more tasks.\n" else "")
                ++ "\n")
      some (Response.json formattedResponse none)

/-- The deterministic sprint summary used when the sprint narrative call
fails (source lines 1817-1858). -/
def mkSprintFallback (statusGroups assigneeGroups : List (String × List Issue))
    (highPriorityIssues sprintData : List Issue) (sprintName : String) : String :=
  let countOf := fun (st : String) =>
    ((statusGroups.find? (fun p => p.1 == st)).map (fun p => p.2.length)).getD 0
  let doneCount := countOf "Done"
  let inProgressCount := countOf "In Progress"
  let todoCount := countOf "To Do"
  let assigneesCount := (assigneeGroups.filter fun p => p.1 != "Unassigned").length
  "I" ++ ap ++ "m looking at the " ++ sprintName ++ " sprint. "
    ++ (if sprintData.isEmpty then
          "I don" ++ ap ++ "t see any issues in this sprint yet."
        else
          "There are " ++ toString sprintData.length ++ " issues in this sprint. "
            ++ "Current progress: " ++ toString doneCount ++ " completed, "
            ++ toString inProgressCount ++ " in progress, and " ++ toString todoCount
            ++ " still to do.\n\n"
            ++ (if highPriorityIssues.length > 0 then
                  "There are " ++ toString highPriorityIssues.length
                    ++ " high priority issues to focus on.\n\n"
                    ++ (match highPriorityIssues.head? with
                        | some ex =>
                          "For example, " ++ ex.key ++ ": \"" ++ ex.summary
                            ++ "\" is a high priority task currently "
                            ++ ex.statusName.getD "in unknown status" ++ ".\n\n"
                        | none => "")
                else "")
            ++ toString assigneesCount
            ++ " team members are working on tasks in this sprint.")

/-- The SPRINT branch of the handler (source lines 1644-1863): gather the
sprint issues through the agile endpoints (whose inline `.catch` fallbacks
yield empty lists), fall back to the sprint search (whose rejection
escapes to the branch's catch, i.e. `none` — normal processing continues),
then the model narrative (trimmed) or the deterministic sprint summary. -/
def sprintBranch (o : Oracle) : Option Response :=
  let boardsVals := match o.boards with | .ok v => v | .err => []
  let viaAgile : String × List Issue :=
    match boardsVals with
    | [] => ("current sprint", [])
    | _ :: _ =>
      let sprintsVals := match o.sprints with | .ok v => v | .err => []
      match sprintsVals with
      | [] => ("current sprint", [])
      | s :: _ =>
        let issues := match o.sprintIssues with | .ok v => v | .err => []
        (s.name, issues)
  let sprintName := viaAgile.1
  let withData : Option (List Issue) :=
    if viaAgile.2.isEmpty then
      match o.sprintFallbackSearch with
      | .err => none
      | .ok d => some d.issues
    else some viaAgile.2
  withData.map fun sprintData =>
    let statusGroups := groupByKey Issue.status sprintData
    let assigneeGroups := groupByKey Issue.assignee sprintData
    let highPriorityIssues := sprintData.filter isHighPriority
    let message :=
      match o.sprintAI with
      | .ok content => jsTrim content
      | .err =>
        mkSprintFallback statusGroups assigneeGroups highPriorityIssues sprintData sprintName
    Response.json message none

/-- The issue-key branch of the handler (source lines 1865-2061): fetch the
detected issue; on failure continue with normal processing. The source's
direct-lookup condition (line 1912) contains a mid-pattern `$` end
assertion inside a non-template regex literal, so it never matches and the
model-tailored path (with its simplified-format fallback) is always the
one taken. -/
def issueKeyBranch (o : Oracle) (issueKey : String) : Option Response :=
  match o.issueFetch with
  | .err => none
  | .ok issue =>
    let commentMessage :=
      match issue.comments.getLast? with
      | none => "No comments found on this issue."
      | some latest =>
        let commentText :=
          match latest.body with
          | .str s => s
          | b =>
            if truthy b && truthy (getField b "content") then extractTextFromADF b
            else "Comment has a format that cannot be displayed here. Please check directly in Jira."
        "**Latest comment** (by " ++ latest.authorName.getD "Unknown" ++ " on "
          ++ o.localeDate latest.created ++ "):\n\"" ++ commentText ++ "\""
    let message :=
      match o.issueAI with
      | .ok content => jsTrim content
      | .err =>
        "## " ++ issueKey ++ ": "
          ++ (if issue.summary.isEmpty then "No summary" else issue.summary) ++ "\n\n"
          ++ "Here" ++ ap ++ "s what you asked about this issue:\n\n"
          ++ "**Status**: " ++ issue.status ++ "\n"
          ++ "**Priority**: " ++ issue.priorityName.getD "Not set" ++ "\n"
          ++ "**Assignee**: " ++ issue.assignee ++ "\n\n"
          ++ commentMessage
    some (Response.json message (some (.issue issue)))

/-- The CONVERSATION branch (source lines 2064-2109): recent activity for
color plus the conversational renderer; on the search rejecting, one of
the canned conversational responses. -/
def conversationBranch (o : Oracle) : Response :=
  match o.convSearch with
  | .ok data =>
    Response.json (generateResponse o o.convAI (some data) "CONVERSATION") none
  | .err =>
    Response.json (pick conversationalResponses o.rand) none

/-- The retry table of the Execution Controller (source lines 2166-2186):
an intent-appropriate safe template, defaulting to the recent-updates
query. -/
def simplifiedJQLFor (intent query : String) : String :=
  if intent == "PROJECT_STATUS" then safeJqlTemplates.PROJECT_STATUS
  else if intent == "TIMELINE" then safeJqlTemplates.TIMELINE
  else if intent == "BLOCKERS" || intent == "HIGH_PRIORITY" then safeJqlTemplates.HIGH_PRIORITY
  else if intent == "TASK_LIST" && rtest (rstrs ["open", "active"]) query then
    safeJqlTemplates.OPEN_TASKS
  else if intent == "TASK_LIST" && rtest (rstrs ["closed", "done", "completed"]) query then
    safeJqlTemplates.CLOSED_TASKS
  else if intent == "ASSIGNED_TASKS" || intent == "WORKLOAD" then
    safeJqlTemplates.ASSIGNED_TASKS
  else if intent == "SPRINT" then safeJqlTemplates.CURRENT_SPRINT
  else "project = " ++ JIRA_PROJECT_KEY ++ " ORDER BY updated DESC"

/-- The recovery note recorded when the retry succeeds (source line 2202). -/
def recoveryNote : String :=
  "I" ++ ap ++ "ve found some information that might help with your question:"

/-- Step 5 of the handler (source lines 2206-2333): read and clear the
recovery note, render the result set (the renderer's embedding is total,
so the endpoint's own render-failure fallbacks at lines 2223-2244 and
2250-2319 are unreachable), prefix the note if one was pending, store the
response and send it with the result set attached. -/
def renderStep (o : Oracle) (intent : String) (sess : Session) (resp : SearchData) :
    Session × Response :=
  match sess.note with
  | some note =>
    let sess' := { sess with note := none }
    let baseResponse := generateResponse o o.renderAI (some resp) intent
    let formatted := note ++ "\n\n" ++ baseResponse
    ({ sess' with lastResponse := some formatted },
      Response.json formatted (some (.search resp)))
  | none =>
    let formatted := generateResponse o o.renderAI (some resp) intent
    ({ sess with lastResponse := some formatted },
      Response.json formatted (some (.search resp)))

/-- Steps 2-5 of the handler (source lines 2111-2333): synthesize the
structured query (the endpoint's own catch around `generateJQL` is the
`ExtCall.err` case inside it), reject an empty query with a 400, execute,
on rejection retry exactly once with the intent-appropriate safe template
(recording the recovery note — the result of a resolved search always has
an `issues` array), and render. A rejection of the retry itself is not
caught here and propagates to the outer catch. The last component counts
the remote search calls the controller made. -/
def mainSearchAndRender (o : Oracle) (query intent : String) (sess : Session) :
    Session × Except Unit Response × Nat :=
  let jql := generateJQL o.jqlAI query intent
  if jql.isEmpty then
    (sess, .ok (Response.statusJson 400 "Failed to generate a valid query."), 0)
  else
    match o.search1 jql with
    | .ok resp =>
      let (s', r) := renderStep o intent sess resp
      (s', .ok r, 1)
    | .err =>
      match o.search2 (simplifiedJQLFor intent query) with
      | .err => (sess, .error (), 2)
      | .ok resp =>
        let (s', r) := renderStep o intent { sess with note := some recoveryNote } resp
        (s', .ok r, 2)

/-- The handler after the canonical-query special cases (source lines
1610-2333): classify, push the intent into the bounded history, then the
greeting, sprint, issue-key and conversation branches, and finally the
search-and-render pipeline. -/
def afterSpecial (o : Oracle) (query : String) (sess0 : Session) :
    Session × Except Unit Response × Nat :=
  let intent := analyzeQueryIntent o.classifyAI query
  let sess := { sess0 with intents := pushCapped sess0.intents intent }
  if intent == "GREETING" then
    let response := pick greetingResponses o.rand
    ({ sess with lastResponse := some response }, .ok (Response.json response none), 0)
  else
    match (if intent == "SPRINT" then sprintBranch o else none) with
    | some r => ({ sess with lastResponse := some r.message }, .ok r, 0)
    | none =>
      match (if hasIssueKey query then
          issueKeyBranch o (String.mk ((findKey query.data).getD [])) else none) with
      | some r => ({ sess with lastResponse := some r.message }, .ok r, 0)
      | none =>
        if intent == "CONVERSATION" then
          let r := conversationBranch o
          ({ sess with lastResponse := some r.message }, .ok r, 0)
        else mainSearchAndRender o query intent sess

/-- The body of the handler's big `try` (source lines 1575-2333):
preprocess, try the four canonical-query special handlers (each responds
or yields to normal processing; the four canonical strings are mutually
exclusive, so the source's sequential `if`s behave as a first-match
chain), then the rest of the pipeline. -/
def apiQueryTryBody (o : Oracle) (query0 : String) (sess : Session) :
    Session × Except Unit Response × Nat :=
  let query := preprocessQuery query0
  if query == "show most recently updated task" then
    match getMostRecentTaskDetails o with
    | some r => ({ sess with lastResponse := some r.message }, .ok r, 0)
    | none => afterSpecial o query sess
  else if query == "show project status" then
    match getProjectStatusOverview o with
    | some r => ({ sess with lastResponse := some r.message }, .ok r, 0)
    | none => afterSpecial o query sess
  else if query == "show project timeline" || query == "show upcoming deadlines" then
    match getProjectTimeline o query with
    | some r => ({ sess with lastResponse := some r.message }, .ok r, 0)
    | none => afterSpecial o query sess
  else if query == "show team workload" then
    match getTeamWorkload o with
    | some r => ({ sess with lastResponse := some r.message }, .ok r, 0)
    | none => afterSpecial o query sess
  else afterSpecial o query sess

/-- The outer catch (source lines 2334-2390): try the basic recent-items
query and compose a recovery message from it; if that also fails (or finds
nothing), answer with one of the friendly conversational responses. Raw
error text never reaches the payload. -/
def outerCatch (o : Oracle) : Response :=
  match o.basicSearch with
  | .ok data =>
    if data.issues.length > 0 then
      let message := pick relevantInfo o.rand ++ "\n\n"
        ++ String.join (data.issues.map fun i =>
            "• " ++ i.key ++ ": " ++ i.summary ++ " (" ++ i.status
              ++ ", Assigned to: " ++ i.assignee ++ ")\n")
        ++ "\n\nCould you try rephrasing your question? I can help you with project status, tasks, deadlines, and team workload."
      Response.json message none
    else Response.json (pick friendlyResponses o.rand) none
  | .err => Response.json (pick friendlyResponses o.rand) none

/-- `app.post("/api/query")` (source lines 1553-2391): reject an absent
query with a 400, push the query into the bounded history, run the body,
and convert any escaped rejection into the outer catch's friendly
response. The final component counts the Execution Controller's remote
search calls. -/
def apiQuery (o : Oracle) (query : String) (sess0 : Session) : Response × Session × Nat :=
  if query.isEmpty then (Response.statusJson 400 "Query is required", sess0, 0)
  else
    let sess1 := { sess0 with queries := pushCapped sess0.queries query }
    match apiQueryTryBody o query sess1 with
    | (s2, .ok resp, n) => (resp, s2, n)
    | (s2, .error _, n) => (outerCatch o, s2, n)

/-! ## The synthesized query is never empty (so the handler's
`!jql` 400 response is unreachable) -/

/-- The non-emptiness invariant of a synthesizer decision. -/
def synthOk : SynthStep → Prop
  | .direct j => j ≠ ""
  | .generative => True

theorem ite_ne {α : Type} {c : Prop} [Decidable c] {a b x : α}
    (ha : a ≠ x) (hb : b ≠ x) : (if c then a else b) ≠ x := by
  split <;> assumption

theorem ite_synthOk {c : Prop} [Decidable c] {a b : SynthStep}
    (ha : synthOk a) (hb : synthOk b) : synthOk (if c then a else b) := by
  split <;> assumption

theorem matchComma_repl : ∀ l r m rest, matchComma l = some (r, m, rest) → r ≠ [] := by
  intro l r m rest h
  cases l with
  | nil => simp [matchComma] at h
  | cons c t =>
    simp only [matchComma] at h
    split at h
    · simp at h
      rw [← h.1]
      simp
    · simp at h

theorem matchIsEmpty_repl : ∀ l r m rest, matchIsEmpty l = some (r, m, rest) → r ≠ [] := by
  intro l r m rest h
  unfold matchIsEmpty at h
  dsimp only at h
  split at h
  · simp at h
  · cases h1 : stripCI ("is").data (l.dropWhile isWS) with
    | none => rw [h1] at h; simp at h
    | some pr1 =>
      obtain ⟨m1, r2⟩ := pr1
      rw [h1] at h
      simp only at h
      split at h
      · simp at h
      · cases h2 : stripCI ("empty").data (r2.dropWhile isWS) with
        | none => rw [h2] at h; simp at h
        | some pr2 =>
          obtain ⟨m2, r4⟩ := pr2
          rw [h2] at h
          simp only at h
          split at h
          · simp at h
            rw [← h.1]
            simp
          · simp at h

theorem matchIsNotEmpty_repl : ∀ l r m rest, matchIsNotEmpty l = some (r, m, rest) → r ≠ [] := by
  intro l r m rest h
  unfold matchIsNotEmpty at h
  dsimp only at h
  split at h
  · simp at h
  · cases h1 : stripCI ("is").data (l.dropWhile isWS) with
    | none => rw [h1] at h; simp at h
    | some pr1 =>
      obtain ⟨m1, r2⟩ := pr1
      rw [h1] at h
      simp only at h
      split at h
      · simp at h
      · cases h2 : stripCI ("not").data (r2.dropWhile isWS) with
        | none => rw [h2] at h; simp at h
        | some pr2 =>
          obtain ⟨m2, r4⟩ := pr2
          rw [h2] at h
          simp only at h
          split at h
          · simp at h
          · cases h3 : stripCI ("empty").data (r4.dropWhile isWS) with
            | none => rw [h3] at h; simp at h
            | some pr3 =>
              obtain ⟨m3, r6⟩ := pr3
              rw [h3] at h
              simp only at h
              split at h
              · simp at h
                rw [← h.1]
                simp
              · simp at h

theorem matchValueQuote_repl : ∀ l r m rest, matchValueQuote l = some (r, m, rest) → r ≠ [] := by
  intro l r m rest h
  unfold matchValueQuote at h
  dsimp only at h
  split at h
  · simp at h
  · split at h
    · split at h
      · split at h
        · simp at h
        · split at h
          · simp at h
          · split at h
            · simp at h
            · simp at h
              rw [← h.1]
              simp
      · simp at h
    · simp at h

theorem matchReserved_repl (word : String) :
    ∀ p l r m rest, matchReserved word p l = some (r, m, rest) → r ≠ [] := by
  intro p l r m rest h
  unfold matchReserved at h
  split at h
  · simp at h
  · split at h
    · simp at h
    · cases h1 : stripCI word.data l with
      | none => rw [h1] at h; simp at h
      | some pr =>
        obtain ⟨m', rest'⟩ := pr
        rw [h1] at h
        simp only at h
        split at h
        · simp at h
        · split at h
          · simp at h
          · simp at h
            rw [← h.1]
            simp

theorem scanRw_ne_nil (f : List Char → Option (List Char × List Char × List Char))
    (hr : ∀ l r m rest, f l = some (r, m, rest) → r ≠ []) :
    ∀ (fuel : Nat) (l : List Char), l ≠ [] → scanRw f fuel l ≠ [] := by
  intro fuel
  induction fuel with
  | zero => intro l h; exact h
  | succ n ih =>
    intro l h
    cases l with
    | nil => exact absurd rfl h
    | cons c t =>
      show (match f (c :: t) with
        | some (r, _, rest) => r ++ scanRw f n rest
        | none => c :: scanRw f n t) ≠ []
      cases hf : f (c :: t) with
      | some pr =>
        obtain ⟨r, m, rest⟩ := pr
        have hrne := hr _ _ _ _ hf
        simp [hrne]
      | none => simp

theorem scanRwB_ne_nil (f : Option Char → List Char → Option (List Char × List Char × List Char))
    (hr : ∀ p l r m rest, f p l = some (r, m, rest) → r ≠ []) :
    ∀ (fuel : Nat) (p : Option Char) (l : List Char), l ≠ [] → scanRwB f fuel p l ≠ [] := by
  intro fuel
  induction fuel with
  | zero => intro p l h; exact h
  | succ n ih =>
    intro p l h
    cases l with
    | nil => exact absurd rfl h
    | cons c t =>
      show (match f p (c :: t) with
        | some (r, m, rest) => r ++ scanRwB f n (m.getLast?.orElse fun _ => p) rest
        | none => c :: scanRwB f n (some c) t) ≠ []
      cases hf : f p (c :: t) with
      | some pr =>
        obtain ⟨r, m, rest⟩ := pr
        have hrne := hr _ _ _ _ _ hf
        simp [hrne]
      | none => simp

theorem scopeStep_ne_nil (l : List Char) : scopeStep l ≠ [] := by
  unfold scopeStep
  split
  · rename_i hc
    intro hx
    rw [hx] at hc
    exact absurd hc (by decide)
  · simp

theorem quoteReserved_ne_nil (w : String) (l : List Char) (h : l ≠ []) :
    quoteReserved w l ≠ [] :=
  scanRwB_ne_nil _ (matchReserved_repl w) _ _ _ h

theorem foldl_quoteReserved_ne_nil :
    ∀ (ws : List String) (l : List Char), l ≠ [] →
      ws.foldl (fun s w => quoteReserved w s) l ≠ [] := by
  intro ws
  induction ws with
  | nil => intro l h; exact h
  | cons w t ih =>
    intro l h
    exact ih _ (quoteReserved_ne_nil w l h)

theorem sanitizeList_ne_nil (l : List Char) (h : l ≠ []) : sanitizeList l ≠ [] := by
  unfold sanitizeList
  apply foldl_quoteReserved_ne_nil
  unfold quoteValues
  apply scanRw_ne_nil _ matchValueQuote_repl
  unfold fixIsNotEmpty
  apply scanRw_ne_nil _ matchIsNotEmpty_repl
  unfold fixIsEmpty
  apply scanRw_ne_nil _ matchIsEmpty_repl
  exact scopeStep_ne_nil _

theorem sanitizeJQL_ne_empty (s : String) : sanitizeJQL s ≠ "" := by
  unfold sanitizeJQL
  split
  · decide
  · rename_i hne
    have hd : s.data ≠ [] := by
      intro hx
      apply hne
      rw [String.isEmpty_iff]
      exact String.ext (by simp [hx])
    intro hx
    have h2 := congrArg String.data hx
    simp only at h2
    exact sanitizeList_ne_nil s.data hd h2

theorem key_string_ne_empty (x : String) : ("key = \"" ++ x ++ "\"") ≠ "" := by
  intro h
  have h1 := congrArg String.length h
  rw [String.length_append, String.length_append] at h1
  have h2 : ("key = \"" : String).length = 7 := rfl
  have h3 : ("\"" : String).length = 1 := rfl
  have h4 : ("" : String).length = 0 := rfl
  omega

theorem fallbackGenerateJQL_ne_empty (q i : String) : fallbackGenerateJQL q i ≠ "" := by
  unfold fallbackGenerateJQL
  dsimp only
  repeat' apply ite_ne
  all_goals decide

theorem generateJQLDet_ok (q i : String) : synthOk (generateJQLDet q i) := by
  unfold generateJQLDet
  repeat' apply ite_synthOk
  all_goals simp only [synthOk]
  all_goals try decide
  all_goals try exact key_string_ne_empty _
  cases hf : findKey q.data with
  | some m => exact key_string_ne_empty _
  | none =>
    repeat' apply ite_synthOk
    all_goals simp only [synthOk]
    all_goals try trivial
    all_goals decide

theorem generateJQL_ne_empty (ai : ExtCall String) (q i : String) :
    generateJQL ai q i ≠ "" := by
  unfold generateJQL
  cases hd : generateJQLDet q i with
  | direct j =>
    have := generateJQLDet_ok q i
    rw [hd] at this
    exact this
  | generative =>
    cases ai with
    | ok content => exact sanitizeJQL_ne_empty _
    | err => exact fallbackGenerateJQL_ne_empty _ _

/-! ## Response-shape lemmas: every reply of the handler is `res.json` -/

/-- A response sent with `res.json` (HTTP 200), never `res.status(...)`. -/
def isJson : Response → Prop
  | .json _ _ => True
  | .statusJson _ _ => False

/-- A body outcome that is either a thrown rejection (handled by the outer
catch) or a JSON response. -/
def okOrJson : Except Unit Response → Prop
  | .ok r => isJson r
  | .error _ => True

theorem renderStep_isJson (o : Oracle) (i : String) (s : Session) (r : SearchData) :
    isJson (renderStep o i s r).2 := by
  unfold renderStep
  split <;> trivial

theorem getMostRecentTaskDetails_isJson (o : Oracle) :
    ∀ r, getMostRecentTaskDetails o = some r → isJson r := by
  intro r h
  unfold getMostRecentTaskDetails at h
  repeat' split at h
  all_goals simp at h
  all_goals rw [← h]
  all_goals trivial

theorem getProjectStatusOverview_isJson (o : Oracle) :
    ∀ r, getProjectStatusOverview o = some r → isJson r := by
  intro r h
  unfold getProjectStatusOverview at h
  repeat' split at h
  all_goals simp at h
  all_goals rw [← h]
  all_goals trivial

theorem getProjectTimeline_isJson (o : Oracle) (q : String) :
    ∀ r, getProjectTimeline o q = some r → isJson r := by
  intro r h
  unfold getProjectTimeline at h
  repeat' split at h
  all_goals simp at h
  all_goals rw [← h]
  all_goals trivial

theorem getTeamWorkload_isJson (o : Oracle) :
    ∀ r, getTeamWorkload o = some r → isJson r := by
  intro r h
  unfold getTeamWorkload at h
  repeat' split at h
  all_goals simp at h
  all_goals rw [← h]
  all_goals trivial

theorem sprintBranch_isJson (o : Oracle) :
    ∀ r, sprintBranch o = some r → isJson r := by
  intro r h
  unfold sprintBranch at h
  rw [Option.map_eq_some'] at h
  obtain ⟨a, _, hr⟩ := h
  rw [← hr]
  trivial

theorem issueKeyBranch_isJson (o : Oracle) (k : String) :
    ∀ r, issueKeyBranch o k = some r → isJson r := by
  intro r h
  unfold issueKeyBranch at h
  repeat' split at h
  all_goals simp at h
  all_goals rw [← h]
  all_goals trivial

theorem conversationBranch_isJson (o : Oracle) : isJson (conversationBranch o) := by
  unfold conversationBranch
  split <;> trivial

theorem mainSearch_okOrJson (o : Oracle) (q i : String) (s : Session) :
    okOrJson (mainSearchAndRender o q i s).2.1 := by
  unfold mainSearchAndRender
  dsimp only
  rw [if_neg (by rw [String.isEmpty_iff]; exact generateJQL_ne_empty o.jqlAI q i)]
  cases o.search1 (generateJQL o.jqlAI q i) with
  | ok resp => exact renderStep_isJson o i s resp
  | err =>
    cases o.search2 (simplifiedJQLFor i q) with
    | ok resp =>
      exact renderStep_isJson o i
        { queries := s.queries, intents := s.intents, lastResponse := s.lastResponse,
          note := some recoveryNote } resp
    | err => trivial

theorem afterSpecial_okOrJson (o : Oracle) (q : String) (s : Session) :
    okOrJson (afterSpecial o q s).2.1 := by
  unfold afterSpecial
  dsimp only
  split
  · trivial
  · split
    · rename_i r hr
      split at hr
      · exact sprintBranch_isJson o r hr
      · simp at hr
    · split
      · rename_i r hr
        split at hr
        · exact issueKeyBranch_isJson o _ r hr
        · simp at hr
      · split
        · exact conversationBranch_isJson o
        · exact mainSearch_okOrJson o q _ _

theorem tryBody_okOrJson (o : Oracle) (q : String) (s : Session) :
    okOrJson (apiQueryTryBody o q s).2.1 := by
  unfold apiQueryTryBody
  dsimp only
  split
  · split
    · rename_i r hr
      exact getMostRecentTaskDetails_isJson o r hr
    · exact afterSpecial_okOrJson o _ _
  · split
    · split
      · rename_i r hr
        exact getProjectStatusOverview_isJson o r hr
      · exact afterSpecial_okOrJson o _ _
    · split
      · split
        · rename_i r hr
          exact getProjectTimeline_isJson o _ r hr
        · exact afterSpecial_okOrJson o _ _
      · split
        · split
          · rename_i r hr
            exact getTeamWorkload_isJson o r hr
          · exact afterSpecial_okOrJson o _ _
        · exact afterSpecial_okOrJson o _ _

theorem outerCatch_json (o : Oracle) : ∃ m, outerCatch o = Response.json m none := by
  unfold outerCatch
  cases o.basicSearch with
  | ok data =>
    dsimp only
    split
    · exact ⟨_, rfl⟩
    · exact ⟨_, rfl⟩
  | err => exact ⟨_, rfl⟩

/-- Every external call of one request failing. -/
def allErr (o : Oracle) : Prop :=
  o.mostRecentSearch = .err ∧ o.statusData = .err ∧ o.statusAI = .err
    ∧ o.timelineSearch = .err ∧ o.timelineAI = .err ∧ o.workloadSearch = .err
    ∧ o.workloadAI = .err ∧ o.classifyAI = .err ∧ o.boards = .err ∧ o.sprints = .err
    ∧ o.sprintIssues = .err ∧ o.sprintFallbackSearch = .err ∧ o.sprintAI = .err
    ∧ o.issueFetch = .err ∧ o.issueAI = .err ∧ o.convSearch = .err ∧ o.convAI = .err
    ∧ o.jqlAI = .err ∧ (∀ j, o.search1 j = .err) ∧ (∀ j, o.search2 j = .err)
    ∧ o.renderAI = .err ∧ o.basicSearch = .err

/-- C1: for every request with a non-empty query the handler replies with
`res.json` — a rendered message, never an error status; and when every
external dependency (classifier, synthesis, remote search, rendering)
fails, the reply is one of the pre-written conversational pools (the
friendly last-resort pool, the greeting pool, or the conversational
pool), with no raw error text. -/
theorem C1_handler_total_and_friendly (o : Oracle) (q : String) (s : Session)
    (hq : q.isEmpty = false) :
    (∃ m rd, (apiQuery o q s).1 = Response.json m rd)
    ∧ (allErr o → ∃ m, (apiQuery o q s).1 = Response.json m none
        ∧ m ∈ friendlyResponses ++ greetingResponses ++ conversationalResponses) := by
  constructor
  · unfold apiQuery
    rw [if_neg (by simp [hq])]
    dsimp only
    have hok := tryBody_okOrJson o q { s with queries := pushCapped s.queries q }
    rcases htb : apiQueryTryBody o q { s with queries := pushCapped s.queries q } with
      ⟨s2, e, n⟩
    rw [htb] at hok
    cases e with
    | ok resp =>
      cases resp with
      | json m rd => exact ⟨m, rd, rfl⟩
      | statusJson c m => exact absurd hok (by simp [okOrJson, isJson])
    | error u =>
      obtain ⟨m, hm⟩ := outerCatch_json o
      exact ⟨m, none, by simp [hm]⟩
  · intro hall
    obtain ⟨e1, e2, e3, e4, e5, e6, e7, e8, e9, e10, e11, e12, e13, e14, e15, e16, e17,
      e18, e19, e20, e21, e22⟩ := hall
    have hmr : getMostRecentTaskDetails o = none := by
      unfold getMostRecentTaskDetails
      rw [e1]
    have hps : getProjectStatusOverview o = none := by
      unfold getProjectStatusOverview
      rw [e2]
    have htl : ∀ q', getProjectTimeline o q' = none := by
      intro q'
      unfold getProjectTimeline
      rw [e4]
    have htw : getTeamWorkload o = none := by
      unfold getTeamWorkload
      rw [e6]
    have hsp : sprintBranch o = none := by
      unfold sprintBranch
      rw [e9, e12]
      rfl
    have hik : ∀ k, issueKeyBranch o k = none := by
      intro k
      unfold issueKeyBranch
      rw [e14]
    have hcv : conversationBranch o =
        Response.json (pick conversationalResponses o.rand) none := by
      unfold conversationBranch
      rw [e16]
    have hmain : ∀ q' i' s', mainSearchAndRender o q' i' s' = (s', .error (), 2) := by
      intro q' i' s'
      unfold mainSearchAndRender
      dsimp only
      rw [if_neg (by rw [String.isEmpty_iff]; exact generateJQL_ne_empty o.jqlAI q' i')]
      rw [e19, e20]
    have hcatch : outerCatch o = Response.json (pick friendlyResponses o.rand) none := by
      unfold outerCatch
      rw [e22]
    have hafter : ∀ q' s', ∃ m, (afterSpecial o q' s').2.1 = Except.ok (Response.json m none)
          ∧ m ∈ friendlyResponses ++ greetingResponses ++ conversationalResponses
        ∨ (afterSpecial o q' s').2.1 = Except.error () := by
      intro q' s'
      unfold afterSpecial
      dsimp only
      split
      · refine ⟨pick greetingResponses o.rand, Or.inl ⟨rfl, ?_⟩⟩
        have := pick_mem greetingResponses o.rand (by decide)
        simp [this]
      · rw [show (if analyzeQueryIntent o.classifyAI q' == "SPRINT" then sprintBranch o
            else none) = none from by split <;> simp [hsp]]
        rw [show (if hasIssueKey q' then
              issueKeyBranch o (String.mk ((findKey q'.data).getD [])) else none) = none
            from by split <;> simp [hik]]
        dsimp only
        split
        · refine ⟨pick conversationalResponses o.rand, Or.inl ⟨by rw [hcv], ?_⟩⟩
          have := pick_mem conversationalResponses o.rand (by decide)
          simp [this]
        · refine ⟨"", Or.inr ?_⟩
          rw [hmain]
    have hbody : ∃ m, (apiQueryTryBody o q { s with queries := pushCapped s.queries q }).2.1
          = Except.ok (Response.json m none)
          ∧ m ∈ friendlyResponses ++ greetingResponses ++ conversationalResponses
        ∨ (apiQueryTryBody o q { s with queries := pushCapped s.queries q }).2.1
          = Except.error () := by
      unfold apiQueryTryBody
      dsimp only
      split
      · rw [hmr]
        exact hafter _ _
      · split
        · rw [hps]
          exact hafter _ _
        · split
          · rw [htl]
            exact hafter _ _
          · split
            · rw [htw]
              exact hafter _ _
            · exact hafter _ _
    unfold apiQuery
    rw [if_neg (by simp [hq])]
    dsimp only
    obtain ⟨m, hm⟩ := hbody
    rcases htb : apiQueryTryBody o q { s with queries := pushCapped s.queries q } with
      ⟨s2, e, n⟩
    rw [htb] at hm
    cases hm with
    | inl hok =>
      obtain ⟨hr, hmem⟩ := hok
      simp only at hr
      rw [hr]
      exact ⟨m, rfl, hmem⟩
    | inr herr =>
      simp only at herr
      rw [herr]
      refine ⟨pick friendlyResponses o.rand, by rw [hcatch], ?_⟩
      have := pick_mem friendlyResponses o.rand (by decide)
      simp [this]

/-- A concrete request instance in which every external dependency fails. -/
def errOracle : Oracle where
  localeDate := fun d => d
  monthYear := fun d => d
  rand := 0
  mostRecentSearch := .err
  statusData := .err
  statusAI := .err
  timelineSearch := .err
  timelineAI := .err
  workloadSearch := .err
  workloadAI := .err
  classifyAI := .err
  boards := .err
  sprints := .err
  sprintIssues := .err
  sprintFallbackSearch := .err
  sprintAI := .err
  issueFetch := .err
  issueAI := .err
  convSearch := .err
  convAI := .err
  jqlAI := .err
  search1 := fun _ => .err
  search2 := fun _ => .err
  renderAI := .err
  basicSearch := .err

theorem C1_witness :
    ("zz" : String).isEmpty = false
    ∧ ((∃ m rd, (apiQuery errOracle "zz" Session.fresh).1 = Response.json m rd)
      ∧ (allErr errOracle →
          ∃ m, (apiQuery errOracle "zz" Session.fresh).1 = Response.json m none
            ∧ m ∈ friendlyResponses ++ greetingResponses ++ conversationalResponses)) :=
  ⟨by decide, C1_handler_total_and_friendly errOracle "zz" Session.fresh (by decide)⟩

/-- C7: when the first remote search call rejects the synthesized query and
the retried intent-appropriate safe template succeeds with result set `d`,
the Execution Controller makes exactly two search calls (one retry, no
loop), responds with the retry result set attached, and the rendered
response is the renderer output for `d` prefixed with the recovery note,
which is also stored as the session last response while the pending note
is cleared. -/
theorem C7_retry_once_with_note (o : Oracle) (query intent : String) (sess : Session)
    (d : SearchData)
    (h1 : o.search1 (generateJQL o.jqlAI query intent) = ExtCall.err)
    (h2 : o.search2 (simplifiedJQLFor intent query) = ExtCall.ok d) :
    mainSearchAndRender o query intent sess =
      ({ sess with
          note := none
          lastResponse := some (recoveryNote ++ "\n\n"
            ++ generateResponse o o.renderAI (some d) intent) },
        Except.ok (Response.json
          (recoveryNote ++ "\n\n" ++ generateResponse o o.renderAI (some d) intent)
          (some (RawPayload.search d))), 2) := by
  unfold mainSearchAndRender
  rw [if_neg (by rw [String.isEmpty_iff]; exact generateJQL_ne_empty o.jqlAI query intent)]
  rw [h1, h2]
  rfl

/-- A concrete request instance in which the first search call rejects and
the retry resolves with an empty result set. -/
def retryOracle : Oracle :=
  { errOracle with search2 := fun _ => .ok ⟨[], 0⟩ }

theorem C7_witness :
    retryOracle.search1
        (generateJQL retryOracle.jqlAI "show high priority tasks" "TASK_LIST") = ExtCall.err
    ∧ retryOracle.search2 (simplifiedJQLFor "TASK_LIST" "show high priority tasks")
        = ExtCall.ok ⟨[], 0⟩
    ∧ mainSearchAndRender retryOracle "show high priority tasks" "TASK_LIST" Session.fresh =
      ({ Session.fresh with
          note := none
          lastResponse := some (recoveryNote ++ "\n\n"
            ++ generateResponse retryOracle retryOracle.renderAI (some ⟨[], 0⟩) "TASK_LIST") },
        Except.ok (Response.json
          (recoveryNote ++ "\n\n"
            ++ generateResponse retryOracle retryOracle.renderAI (some ⟨[], 0⟩) "TASK_LIST")
          (some (RawPayload.search ⟨[], 0⟩))), 2) :=
  ⟨rfl, rfl, C7_retry_once_with_note retryOracle "show high priority tasks" "TASK_LIST"
    Session.fresh ⟨[], 0⟩ rfl rfl⟩

/-! ## The bounded session history -/

theorem pushCapped_le (l : List String) (x : String) (h : l.length ≤ 10) :
    (pushCapped l x).length ≤ 10 := by
  unfold pushCapped
  dsimp only
  split
  · simp only [List.length_tail, List.length_append, List.length_cons, List.length_nil]
    omega
  · rename_i hle
    simp only [not_lt, List.length_append, List.length_cons, List.length_nil] at hle
    simp only [List.length_append, List.length_cons, List.length_nil]
    omega

theorem pushCapped_evict (l : List String) (x : String) (h : l.length = 10) :
    pushCapped l x = l.tail ++ [x] := by
  unfold pushCapped
  dsimp only
  rw [if_pos (by simp [List.length_append, h])]
  cases l with
  | nil => simp at h
  | cons a t => simp

theorem renderStep_session (o : Oracle) (intent : String) (sess : Session) (r : SearchData) :
    (renderStep o intent sess r).1.queries = sess.queries
    ∧ (renderStep o intent sess r).1.intents = sess.intents := by
  unfold renderStep
  split <;> exact ⟨rfl, rfl⟩

theorem mainSearch_session (o : Oracle) (q i : String) (sess : Session) :
    (mainSearchAndRender o q i sess).1.queries = sess.queries
    ∧ (mainSearchAndRender o q i sess).1.intents = sess.intents := by
  unfold mainSearchAndRender
  dsimp only
  split
  · exact ⟨rfl, rfl⟩
  · split
    · rename_i resp heq
      obtain ⟨hq, hi⟩ := renderStep_session o i sess resp
      rcases hr : renderStep o i sess resp with ⟨s1, r1⟩
      rw [hr] at hq hi
      exact ⟨hq, hi⟩
    · split
      · exact ⟨rfl, rfl⟩
      · rename_i resp heq
        obtain ⟨hq, hi⟩ :=
          renderStep_session o i { sess with note := some recoveryNote } resp
        rcases hr : renderStep o i { sess with note := some recoveryNote } resp with ⟨s1, r1⟩
        rw [hr] at hq hi
        exact ⟨hq, hi⟩

theorem afterSpecial_session (o : Oracle) (q : String) (s0 : Session) :
    (afterSpecial o q s0).1.queries = s0.queries
    ∧ (afterSpecial o q s0).1.intents
        = pushCapped s0.intents (analyzeQueryIntent o.classifyAI q) := by
  unfold afterSpecial
  dsimp only
  split
  · exact ⟨rfl, rfl⟩
  · split
    · exact ⟨rfl, rfl⟩
    · split
      · exact ⟨rfl, rfl⟩
      · split
        · exact ⟨rfl, rfl⟩
        · exact mainSearch_session o q _ _

theorem tryBody_session (o : Oracle) (q : String) (s : Session) :
    (apiQueryTryBody o q s).1.queries = s.queries
    ∧ ((apiQueryTryBody o q s).1.intents = s.intents
       ∨ ∃ i, (apiQueryTryBody o q s).1.intents = pushCapped s.intents i) := by
  unfold apiQueryTryBody
  dsimp only
  split
  · split
    · exact ⟨rfl, Or.inl rfl⟩
    · obtain ⟨h1, h2⟩ := afterSpecial_session o _ s
      exact ⟨h1, Or.inr ⟨_, h2⟩⟩
  · split
    · split
      · exact ⟨rfl, Or.inl rfl⟩
      · obtain ⟨h1, h2⟩ := afterSpecial_session o _ s
        exact ⟨h1, Or.inr ⟨_, h2⟩⟩
    · split
      · split
        · exact ⟨rfl, Or.inl rfl⟩
        · obtain ⟨h1, h2⟩ := afterSpecial_session o _ s
          exact ⟨h1, Or.inr ⟨_, h2⟩⟩
      · split
        · split
          · exact ⟨rfl, Or.inl rfl⟩
          · obtain ⟨h1, h2⟩ := afterSpecial_session o _ s
            exact ⟨h1, Or.inr ⟨_, h2⟩⟩
        · obtain ⟨h1, h2⟩ := afterSpecial_session o _ s
          exact ⟨h1, Or.inr ⟨_, h2⟩⟩

/-- C8: the per-session query and intent histories stay bounded at 10
entries across a request, and when the query history is already at 10 and
a non-empty query arrives, the oldest entry is evicted (FIFO) and the new
query appended, keeping the size exactly at the cap. -/
theorem C8_history_capped (o : Oracle) (q : String) (s : Session)
    (h1 : s.queries.length ≤ 10) (h2 : s.intents.length ≤ 10) :
    (apiQuery o q s).2.1.queries.length ≤ 10
    ∧ (apiQuery o q s).2.1.intents.length ≤ 10
    ∧ (q.isEmpty = false → s.queries.length = 10 →
        (apiQuery o q s).2.1.queries = s.queries.tail ++ [q]) := by
  unfold apiQuery
  cases hqe : q.isEmpty with
  | true =>
    rw [if_pos rfl]
    exact ⟨h1, h2, fun hne _ => absurd hne (by simp)⟩
  | false =>
    rw [if_neg (by simp)]
    dsimp only
    obtain ⟨hqs, hints⟩ := tryBody_session o q { s with queries := pushCapped s.queries q }
    rcases htb : apiQueryTryBody o q { s with queries := pushCapped s.queries q }
      with ⟨s2, e, n⟩
    rw [htb] at hqs hints
    dsimp only at hqs hints
    have hfinal : (match (s2, e, n) with
        | (s2, Except.ok resp, n) => (resp, s2, n)
        | (s2, Except.error _, n) => (outerCatch o, s2, n)).2.1 = s2 := by
      cases e <;> rfl
    rw [hfinal]
    refine ⟨?_, ?_, ?_⟩
    · rw [hqs]
      exact pushCapped_le s.queries q h1
    · cases hints with
      | inl hsame => rw [hsame]; exact h2
      | inr hpush =>
        obtain ⟨i, hi⟩ := hpush
        rw [hi]
        exact pushCapped_le s.intents i h2
    · intro _ h10
      rw [hqs]
      exact pushCapped_evict s.queries q h10

/-- A session whose histories are already at the 10-entry cap. -/
def fullSession : Session :=
  ⟨List.replicate 10 "old", List.replicate 10 "GENERAL", none, none⟩

theorem C8_witness :
    fullSession.queries.length ≤ 10 ∧ fullSession.intents.length ≤ 10
    ∧ ((apiQuery errOracle "zz" fullSession).2.1.queries.length ≤ 10
      ∧ (apiQuery errOracle "zz" fullSession).2.1.intents.length ≤ 10
      ∧ (("zz" : String).isEmpty = false → fullSession.queries.length = 10 →
          (apiQuery errOracle "zz" fullSession).2.1.queries
            = fullSession.queries.tail ++ ["zz"])) :=
  ⟨by decide, by decide,
    C8_history_capped errOracle "zz" fullSession (by decide) (by decide)⟩

end SomiApp
